import Mathlib

/-!
# Verification of the elempleo-scraper job-discovery and field-extraction pipeline

Shallow embedding of the scraping pipeline of the repository:

* `all_scraper.py`        — auto-pagination identifier discovery and detail-page extraction;
* `scrape.py`             — scroll-based identifier discovery and API save;
* `combined_scraper.py`   — multi-site card scraper (`_find_elements_debug` cascade,
                            `_init_job`, per-card extraction, CSV save);
* `elempleo_scraper.py`   — quick-view modal extraction with full-text fallbacks;
* `elempleo_scraper_simple.py` — requests-based card scraper;
* `elempleo_full_scraper.py`   — detail-page enrichment and CSV save.

The browser engine (playwright), the HTML parser (BeautifulSoup) and the regex
engine are external collaborators: a captured page or parsed document is
modelled as a structure of query functions (selector -> element text), and the
Python logic over those queries is embedded as Lean functions.  Python dicts
are association lists (`Rcd`), Python sets of identifiers are duplicate-free
accumulation lists, and the CSV module's QUOTE_MINIMAL writer and reader are
modelled character for character.
-/

namespace ElempleoSpec

/-! ## String and list helpers (Python `str` primitives over `List Char`) -/

/-- The ASCII whitespace Python's `str.strip` and `\s` recognise. -/
def isWsCh (c : Char) : Bool :=
  c = ' ' || c = '\t' || c = '\n' || c = '\r' || c = '\x0b' || c = '\x0c'

/-- `str.strip()` on the underlying character list. -/
def trimChars (cs : List Char) : List Char :=
  ((cs.dropWhile isWsCh).reverse.dropWhile isWsCh).reverse

/-- Python `s.strip()`. -/
def pyStrip (s : String) : String := String.mk (trimChars s.data)

/-- Python `s.lower()` (ASCII case folding). -/
def lowerStr (s : String) : String := String.mk (s.data.map Char.toLower)

/-- Does the first list start with the second? -/
def hasPre : List Char → List Char → Bool
  | _, [] => true
  | [], _ :: _ => false
  | a :: as, b :: bs => a = b && hasPre as bs

/-- Does `pat` occur as a contiguous run inside `hay`? -/
def hasSubAux : List Char → List Char → Bool
  | [], pat => pat.isEmpty
  | hay@(_ :: t), pat => hasPre hay pat || hasSubAux t pat

/-- Python `pat in hay` for strings. -/
def occursIn (hay pat : String) : Bool := hasSubAux hay.data pat.data

/-- Python `c in s` for a single character. -/
def hasChar (s : String) (c : Char) : Bool := s.data.any (· = c)

/-- `text.split('\n')`, worker: `acc` is the reversed current line. -/
def splitNlAux : List Char → List Char → List String
  | acc, [] => [String.mk acc.reverse]
  | acc, '\n' :: r => String.mk acc.reverse :: splitNlAux [] r
  | acc, c :: r => splitNlAux (c :: acc) r

/-- `[l.strip() for l in text.split('\n') if l.strip()]`. -/
def cleanLines (s : String) : List String :=
  ((splitNlAux [] s.data).map pyStrip).filter (fun l => l ≠ "")

/-- A character of the class `[\d,.]`. -/
def isNumCh (c : Char) : Bool := c.isDigit || c = ',' || c = '.'

/-- `re.findall(r"[\d,.]+", s)`: maximal runs; `cur` is the reversed current run. -/
def numRunsAux : List Char → List Char → List String
  | cur, [] => if cur.isEmpty then [] else [String.mk cur.reverse]
  | cur, c :: r =>
    if isNumCh c then numRunsAux (c :: cur) r
    else if cur.isEmpty then numRunsAux [] r
    else String.mk cur.reverse :: numRunsAux [] r

/-- Python `re.findall(r"[\d,.]+", s)`. -/
def findallNum (s : String) : List String := numRunsAux [] s.data

/-- Python `\w` (ASCII part). -/
def isWordCh (c : Char) : Bool := c.isAlphanum || c = '_'

/-- A character of the class `[\w.-]`. -/
def isEmailCh (c : Char) : Bool := isWordCh c || c = '.' || c = '-'

/-- The split of `cs` at the rightmost `'.'` that is followed by a word
character: `(before the dot, the maximal word run after it)`.  This is the
backtracking point of `[\w.-]+\.\w+`. -/
def lastDotSplit : List Char → Option (List Char × List Char)
  | [] => none
  | c :: rest =>
    match lastDotSplit rest with
    | some (a, b) => some (c :: a, b)
    | none =>
      if c = '.' && !(rest.takeWhile isWordCh).isEmpty then
        some ([], rest.takeWhile isWordCh)
      else none

/-- A match of `[\w\.-]+@[\w\.-]+\.\w+` anchored at the head of `cs`
(leftmost-greedy semantics of `re`). -/
def emailAt (cs : List Char) : Option (List Char) :=
  let p1 := cs.takeWhile isEmailCh
  if p1.isEmpty then none
  else
    match cs.dropWhile isEmailCh with
    | '@' :: r2 =>
      let p2 := r2.takeWhile isEmailCh
      if p2.isEmpty then none
      else
        match lastDotSplit p2 with
        | some (a, b) => if a.isEmpty then none else some (p1 ++ '@' :: a ++ '.' :: b)
        | none => none
    | _ => none

/-- Scan every start position, leftmost first. -/
def emailSearchAux : List Char → Option String
  | [] => none
  | cs@(_ :: rest) =>
    match emailAt cs with
    | some m => some (String.mk m)
    | none => emailSearchAux rest

/-- Python `re.search(r"[\w\.-]+@[\w\.-]+\.\w+", s)`, returning `group(0)`. -/
def emailSearch (s : String) : Option String := emailSearchAux s.data

/-- A match of `(\d+)\s*años?` anchored at the head, returning `group(1)`. -/
def expAt (cs : List Char) : Option String :=
  let ds := cs.takeWhile Char.isDigit
  if ds.isEmpty then none
  else if hasPre ((cs.dropWhile Char.isDigit).dropWhile isWsCh) "año".data then
    some (String.mk ds)
  else none

/-- Scan every start position, leftmost first. -/
def expSearchAux : List Char → Option String
  | [] => none
  | cs@(_ :: rest) =>
    match expAt cs with
    | some d => some d
    | none => expSearchAux rest

/-- Python `re.search(r'(\d+)\s*años?', s)` returning `group(1)`. -/
def expSearch (s : String) : Option String := expSearchAux s.data

/-- Month alternatives of the posting-date pattern in `elempleo_scraper.py`. -/
def monthToks : List String :=
  ["Oct", "Nov", "Dic", "Jan", "Feb", "Mar", "Apr", "May", "Jun", "Jul", "Aug", "Sep"]

def monthAfter (cs : List Char) : Bool := monthToks.any (fun m => hasPre cs m.data)

/-- `\s+` then a month token. -/
def wsThenMonth : List Char → Bool
  | [] => false
  | c :: r => isWsCh c && monthAfter (r.dropWhile isWsCh)

/-- A match of `\d{1,2}\s+(Oct|...|Sep)` anchored at the head. -/
def dateAt : List Char → Bool
  | [] => false
  | c1 :: r1 =>
    c1.isDigit &&
      (match r1 with
       | c2 :: r2 => if c2.isDigit then (wsThenMonth r2 || wsThenMonth r1) else wsThenMonth r1
       | [] => false)

def dateReSearch : List Char → Bool
  | [] => false
  | cs@(_ :: rest) => dateAt cs || dateReSearch rest

/-- Python `re.search(r'\d{1,2}\s+(Oct|Nov|Dic|Jan|Feb|Mar|Apr|May|Jun|Jul|Aug|Sep)', s)`. -/
def dateRe (s : String) : Bool := dateReSearch s.data

/-- `', '.join(selectors)`. -/
def joinComma : List String → String
  | [] => ""
  | [s] => s
  | s :: rest => s ++ ", " ++ joinComma rest

/-- `mailto:` stripped everywhere, as Python `href.replace("mailto:", "")`. -/
def removeMailto : List Char → List Char
  | 'm' :: 'a' :: 'i' :: 'l' :: 't' :: 'o' :: ':' :: r => removeMailto r
  | c :: r => c :: removeMailto r
  | [] => []

/-- The run's date arithmetic: a date is a day count, `strftime` an abstract
rendering of it.  `datetime.today() + timedelta(days=30)` is `today + 30`. -/
def fmtDate (d : Nat) : String := toString d

/-! ## Python dicts as association lists -/

/-- A Python dict with string keys. -/
abbrev Rcd (α : Type) := List (String × α)

def keysOf {α} (r : Rcd α) : List String := r.map Prod.fst

/-- `d[k]` as an option: the first entry with key `k`. -/
def dictGet {α} (r : Rcd α) (k : String) : Option α :=
  match r.find? (fun p => p.1 = k) with
  | some p => some p.2
  | none => none

/-- `d[k] = v`: replace in place if the key exists, append otherwise. -/
def dictSet {α} : Rcd α → String → α → Rcd α
  | [], k, v => [(k, v)]
  | p :: r, k, v => if p.1 = k then (k, v) :: r else p :: dictSet r k v

/-- String value of a key, `""` when absent. -/
def getStrD (r : Rcd String) (k : String) : String := (dictGet r k).getD ""

/-! ## `all_scraper.py`: detail-page extraction (`get_job_details`) -/

/-- The `HEADERS` schema of `all_scraper.py`. -/
def HEADERS : List String :=
  ["_job_featured_image", "_job_title", "_job_featured", "_job_filled", "_job_urgent",
   "_job_description", "_job_category", "_job_type", "_job_tag", "_job_expiry_date",
   "_job_gender", "_job_apply_type", "_job_apply_url", "_job_apply_email",
   "_job_salary_type", "_job_salary", "_job_max_salary", "_job_experience",
   "_job_career_level", "_job_qualification", "_job_video_url", "_job_photos",
   "_job_application_deadline_date", "_job_address", "_job_location", "_job_map_location"]

/-- A parsed detail-page snapshot, as `get_job_details` queries it.  Each field
is one of the BeautifulSoup queries the function performs; text results carry
`get_text(strip=True)` already applied by the external parser. -/
structure AllSoup where
  /-- `soup.select_one("img[src*='empleo'], img[src*='ofertas']")`, its `src`. -/
  featuredImageSrc : Option String
  /-- The description text assembled from `.description-block span` children
  (paragraphs, bullet items, raw strings), `None` when the container is absent. -/
  descText : Option String
  /-- `soup.select_one(sel)` followed by `get_text(strip=True)`. -/
  selOne : String → Option String
  /-- `soup.find("span")`, its stripped text. -/
  firstSpanText : Option String
  /-- `soup.select(".data-column span")`, stripped texts in document order. -/
  dataColumnSpans : List String
  /-- `soup.find("i", class_="fa fa-level-down fa-fw").find_next("span")`, stripped. -/
  careerIconSpan : Option String
  /-- `soup.get_text()`. -/
  fullText : String
  /-- `soup.find("meta", property="og:url")`, its `content` attribute. -/
  ogUrl : Option String

/-- `extract_text(soup, selector)` of `all_scraper.py`: stripped text or `""`. -/
def extract_text (soup : AllSoup) (sel : String) : String := (soup.selOne sel).getD ""

/-- One `job[key] = value` statement: the key and the value computation (which
may read the record built so far); `none` models a guard that skipped the write. -/
abbrev Step := String × (Rcd String → Option String)

def applyStep (j : Rcd String) (s : Step) : Rcd String :=
  match s.2 j with
  | some v => dictSet j s.1 v
  | none => j

/-- The job-type default logic of `get_job_details`. -/
def jobTypeOf (soup : AllSoup) : String :=
  match soup.firstSpanText with
  | none => "Tiempo completo"
  | some t =>
    let tl := lowerStr t
    if occursIn tl "medio tiempo" then "Medio tiempo"
    else if occursIn tl "remoto" then "Remoto"
    else "Tiempo completo"

/-- The body of `get_job_details` as its sequence of field writes, in source
order.  An exception caught by the surrounding `try` corresponds to cutting
this list at the point the exception was raised (`get_job_details_upto`). -/
def allSteps (soup : AllSoup) (today : Nat) : List Step :=
  let salary_text := extract_text soup "[class*='salario'], .js-joboffer-salary, .compensation"
  let numbers := findallNum salary_text
  [("_job_featured_image", fun _ => soup.featuredImageSrc),
   ("_job_description", fun _ => soup.descText),
   ("_job_title", fun _ =>
     some (extract_text soup ".category, [class*='categoria'], .breadcrumb li:last-child")),
   ("_job_category", fun _ => some (extract_text soup ".js-position-area")),
   ("_job_type", fun _ => some (jobTypeOf soup)),
   ("_job_salary", fun _ => some salary_text),
   ("_job_salary_type", fun _ =>
     if salary_text ≠ "" && !numbers.isEmpty then some "Mensual" else none),
   ("_job_max_salary", fun _ =>
     if salary_text ≠ "" && !numbers.isEmpty then numbers.getLast? else none),
   ("_job_location", fun _ =>
     some (extract_text soup "[class*='ubicacion'], .js-joboffer-city, [itemprop='addressLocality']")),
   ("_job_address", fun j => some (getStrD j "_job_location")),
   ("_job_expiry_date", fun _ => some (fmtDate (today + 30))),
   ("_job_application_deadline_date", fun _ => some (fmtDate (today + 30))),
   ("_job_experience", fun _ => soup.dataColumnSpans.find? (fun t =>
     occursIn (lowerStr t) "experiencia" || occursIn (lowerStr t) "años")),
   ("_job_qualification", fun _ =>
     some (extract_text soup "[class*='js-education-level'], [class*='formacion']")),
   ("_job_career_level", fun _ => soup.careerIconSpan),
   ("_job_apply_email", fun _ => emailSearch soup.fullText),
   ("_job_apply_url", fun _ => soup.ogUrl.bind (fun c => if c ≠ "" then some c else none)),
   ("_job_featured", fun _ => some "1"),
   ("_job_filled", fun _ => some "0"),
   ("_job_urgent", fun _ => some "0"),
   ("_job_gender", fun _ => some ""),
   ("_job_tag", fun _ => some "Costa Rica"),
   ("_job_video_url", fun _ => some ""),
   ("_job_photos", fun _ => some ""),
   ("_job_map_location", fun _ => some ""),
   ("_job_apply_type", fun _ => some "external")]

/-- `job = {key: "" for key in HEADERS}` and friends. -/
def initRecord (fields : List String) : Rcd String := fields.map (fun f => (f, ""))

/-- `get_job_details(page, job_url)` on a captured snapshot: the initial
all-empty record with every field write applied. -/
def get_job_details (soup : AllSoup) (today : Nat) : Rcd String :=
  (allSteps soup today).foldl applyStep (initRecord HEADERS)

/-- The record as it stands after the first `k` field writes — what the
`except` branch returns when the body raised after `k` statements. -/
def get_job_details_upto (soup : AllSoup) (today : Nat) (k : Nat) : Rcd String :=
  ((allSteps soup today).take k).foldl applyStep (initRecord HEADERS)

/-! ## `all_scraper.py` / `scrape.py`: identifier discovery -/

/-- Accepted "next page" anchor texts (compared lowercase). -/
def nextToks : List String := ["siguiente", ">", "»", "next"]

/-- One listing-page snapshot for the auto-pagination driver. -/
structure AutoPage where
  /-- `data-joboffer` attribute of each `button[data-joboffer]`, in order. -/
  buttons : List String
  /-- `inner_text()` of each anchor on the page, in order. -/
  anchors : List String

/-- The next-link scan: some anchor whose stripped text lowercases to a token. -/
def hasNextLink (p : AutoPage) : Bool :=
  p.anchors.any (fun a => nextToks.contains (lowerStr (pyStrip a)))

/-- `job_ids.add(x)` on a set modelled as a duplicate-free list. -/
def insertId (acc : List String) (jobId : String) : List String :=
  if acc.contains jobId then acc else acc ++ [jobId]

/-- The button loop of `get_job_ids_with_playwright_auto`: add each
`data-joboffer` value that is truthy. -/
def collectIds : List String → List String → List String
  | [], acc => acc
  | b :: rest, acc => collectIds rest (if b ≠ "" then insertId acc b else acc)

/-- The button loop of `scrape.py` / `elempleo_full_scraper.py`: add every
`data-joboffer` value unconditionally. -/
def collectIdsScroll : List String → List String → List String
  | [], acc => acc
  | b :: rest, acc => collectIdsScroll rest (insertId acc b)

/-- Why the auto-pagination loop stopped. -/
inductive StopReason
  | noButtons
  | noNext
  | maxPages
deriving DecidableEq, Repr

/-- The `while True` loop of `get_job_ids_with_playwright_auto`.  `pages pn` is
the snapshot captured while `page_number = pn`; `remaining` is
`max_pages - page_number`, so the `page_number > max_pages` break fires when it
hits zero.  Returns the accumulated identifiers, the final page number (= the
count of snapshots processed when started at 1) and the stop reason. -/
def autoGo (pages : Nat → AutoPage) : Nat → Nat → List String →
    List String × Nat × StopReason
  | 0, pn, acc =>
    let p := pages pn
    if p.buttons.isEmpty then (acc, pn, StopReason.noButtons)
    else
      let acc2 := collectIds p.buttons acc
      if hasNextLink p then (acc2, pn, StopReason.maxPages)
      else (acc2, pn, StopReason.noNext)
  | r + 1, pn, acc =>
    let p := pages pn
    if p.buttons.isEmpty then (acc, pn, StopReason.noButtons)
    else
      let acc2 := collectIds p.buttons acc
      if hasNextLink p then autoGo pages r (pn + 1) acc2
      else (acc2, pn, StopReason.noNext)

/-- `get_job_ids_with_playwright_auto(delay, max_pages)` over a page stream. -/
def get_job_ids_with_playwright_auto (pages : Nat → AutoPage) (maxPages : Nat) :
    List String × Nat × StopReason :=
  autoGo pages (maxPages - 1) 1 []

/-- `get_job_ids_with_playwright(max_scrolls, ...)` of `scrape.py`:
`snapshots n` is the parsed page content after the `n`-th scroll. -/
def get_job_ids_with_playwright (snapshots : Nat → List String) (maxScrolls : Nat) :
    List String :=
  (List.range maxScrolls).foldl (fun acc i => collectIdsScroll (snapshots (i + 1)) acc) []

/-! ## `combined_scraper.py`: card cascade and per-card extraction -/

/-- A Python dict value in `JobScraper`: strings everywhere except the three
boolean flags `_init_job` writes. -/
inductive PyVal
  | str (s : String)
  | bool (b : Bool)
deriving DecidableEq, Repr

/-- Python truthiness of such a value. -/
def pvTruthy : PyVal → Bool
  | .str s => s ≠ ""
  | .bool b => b

/-- `str(value)` as the csv module renders it. -/
def strOfVal : PyVal → String
  | .str s => s
  | .bool b => if b then "True" else "False"

/-- `JobScraper.FIELDS`. -/
def FIELDS : List String :=
  ["source_site", "title", "company", "description", "category", "type", "tag",
   "featured", "featured_image", "filled", "urgent",
   "expiry_date", "application_deadline_date", "posting_date",
   "location", "address", "map_location",
   "salary", "salary_type", "max_salary",
   "experience", "career_level", "qualification", "gender",
   "apply_type", "apply_url", "apply_email",
   "video_url", "photos", "url"]

/-- `JobScraper._init_job(site)`. -/
def init_job (site : String) : Rcd PyVal :=
  let j : Rcd PyVal := FIELDS.map (fun f => (f, PyVal.str ""))
  let j := dictSet j "source_site" (PyVal.str site)
  let j := dictSet j "featured" (PyVal.bool false)
  let j := dictSet j "filled" (PyVal.bool false)
  dictSet j "urgent" (PyVal.bool false)

/-- One job card as the per-card loop queries it. -/
structure CCard where
  /-- `card.inner_text()`. -/
  innerText : String
  /-- `card.locator('a').first` + `get_attribute('href')`: `none` when the card
  has no link or the link has no `href`. -/
  linkHref : Option String

/-- A rendered listing page as `_find_elements_debug` queries it. -/
structure CPage where
  /-- `page.locator(selector_str).count()`. -/
  locCount : String → Nat
  /-- `page.locator(selector_str).all()`. -/
  locAll : String → List CCard

/-- `JobScraper._find_elements_debug(page, selector_sets)`: first strategy with
a positive match count wins; `[]` when none does. -/
def find_elements_debug (page : CPage) : List (List String) → List CCard
  | [] => []
  | sels :: rest =>
    let sstr := joinComma sels
    if page.locCount sstr > 0 then page.locAll sstr
    else find_elements_debug page rest

/-- The card-selector cascade `scrape_elempleo` declares. -/
def elempleoSelectorSets : List (List String) :=
  [[".js-joboffer-result"], ["article"], ["[class*=\"result\"]"], ["[class*=\"offer\"]"],
   ["[class*=\"job\"]"], ["div[class*=\"item\"]"]]

/-- City names the elempleo card loop looks for. -/
def cities5 : List String := ["San José", "Heredia", "Cartago", "Alajuela", "Limón"]

/-- The salary line test of the elempleo card loop. -/
def combinedSalaryLine (line : String) : Bool :=
  hasChar line '₡' || hasChar line '$' || occursIn (lowerStr line) "colones"

/-- The body of the per-card loop of `scrape_elempleo` (lines 156–191). -/
def process_card (site : String) (card : CCard) : Rcd PyVal :=
  let job := init_job site
  let lines := cleanLines card.innerText
  let job :=
    if lines.length ≥ 2 then
      let job := dictSet job "title" (PyVal.str (lines.headD ""))
      let job := dictSet job "company"
        (PyVal.str (if lines.length > 1 then (lines[1]?).getD "" else ""))
      let job :=
        match lines.find? (fun l => cities5.any (fun c => occursIn l c)) with
        | some l => dictSet job "location" (PyVal.str l)
        | none => job
      let job :=
        match lines.find? combinedSalaryLine with
        | some l => dictSet job "salary" (PyVal.str l)
        | none => job
      match expSearch (lowerStr card.innerText) with
      | some d => dictSet job "experience" (PyVal.str (d ++ " años"))
      | none => job
    else job
  let job :=
    match card.linkHref with
    | some href =>
      if href ≠ "" then
        dictSet job "url" (PyVal.str
          (if hasPre href.data "http".data then href else "https://www.elempleo.com" ++ href))
      else job
    | none => job
  let job := dictSet job "apply_type" (PyVal.str "email")
  dictSet job "apply_email" (PyVal.str "info@elempleo.com")

/-- `if job['title']: self.jobs.append(job)` over the processed cards. -/
def emit_cards (site : String) : List CCard → List (Rcd PyVal)
  | [] => []
  | c :: rest =>
    let job := process_card site c
    if pvTruthy ((dictGet job "title").getD (PyVal.str "")) then job :: emit_cards site rest
    else emit_cards site rest

/-- `JobScraper.scrape_elempleo(page, max_jobs)`: the records it appends. -/
def scrape_elempleo (page : CPage) (maxJobs : Nat) : List (Rcd PyVal) :=
  let cards := find_elements_debug page elempleoSelectorSets
  if cards.isEmpty then []
  else emit_cards "elempleo.com" (cards.take maxJobs)

/-! ## `elempleo_scraper.py`: quick-view modal extraction -/

/-- The quick-view modal (or the whole page body) as the extractor queries it. -/
structure Modal where
  /-- `modal.locator(sel).first`: its raw `inner_text()` when the count is
  positive, `none` otherwise. -/
  q : String → Option String
  /-- `modal.inner_text()`. -/
  innerText : String
  /-- `modal.locator('a[href*="/empleo/"], a[href*="/oferta/"]').first` +
  `get_attribute('href')`. -/
  qvLinkHref : Option String

/-- The record `_extract_from_quick_view` builds. -/
structure QVJob where
  title : String
  company : String
  location : String
  description : String
  salary : String
  posting_date : String
  url : String
deriving DecidableEq, Repr

/-- One selector cascade of `_extract_from_quick_view`: strip the first
element's text, accept it if the field's predicate passes, else continue. -/
def qvCascade (m : Modal) (ok : String → Bool) : List String → String
  | [] => ""
  | sel :: rest =>
    match m.q sel with
    | some t =>
      let t2 := pyStrip t
      if ok t2 then t2 else qvCascade m ok rest
    | none => qvCascade m ok rest

def qvTitle (m : Modal) : String :=
  qvCascade m (fun t => t ≠ "" && t.length > 3)
    ["h1", "h2", ".job-title", "[class*=\"title\"]"]

def qvCompany (m : Modal) : String :=
  qvCascade m (fun t => t ≠ "" && t.length > 1)
    [".company", ".company-name", "[class*=\"empresa\"]", "[class*=\"company\"]"]

def qvLocation (m : Modal) : String :=
  qvCascade m (fun t => t ≠ "")
    [".location", "[class*=\"ubicacion\"]", "[class*=\"location\"]"]

def qvDescription (m : Modal) : String :=
  qvCascade m (fun t => t.length > 100)
    [".description", ".job-description", "[class*=\"descripcion\"]", "article", ".content"]

def qvSalaryOk (t : String) : Bool :=
  t ≠ "" && (hasChar t '₡' || hasChar t '$' || occursIn (lowerStr t) "confidencial")

def qvSalary (m : Modal) : String :=
  qvCascade m qvSalaryOk [".salary", "[class*=\"salario\"]", "[class*=\"sueldo\"]"]

def qvDateOk (t : String) : Bool :=
  t ≠ "" && (occursIn t "2025" || occursIn t "2024" || occursIn t "Oct" ||
    occursIn (lowerStr t) "hace")

def qvPostingDate (m : Modal) : String :=
  qvCascade m qvDateOk
    [".date", ".posted-date", "time", "[class*=\"fecha\"]", "[class*=\"publicado\"]"]

def qvUrl (m : Modal) : String :=
  match m.qvLinkHref with
  | some h =>
    if h ≠ "" then
      if hasPre h.data "http".data then h else "https://www.elempleo.com" ++ h
    else ""
  | none => ""

/-- The seven known city names of the quick-view location fallback. -/
def cities7 : List String := cities5 ++ ["Guanacaste", "Puntarenas"]

/-- The salary fallback test: a money marker, plus a digit or "confidencial". -/
def qvFallbackSalary (l : String) : Bool :=
  (hasChar l '₡' || hasChar l '$' || occursIn (lowerStr l) "confidencial") &&
  (l.data.any Char.isDigit || occursIn (lowerStr l) "confidencial")

/-- Words that disqualify a line as a company name in the fallback. -/
def qvCompanyBad : List String := ["publicado", "vista", "aplicar"]

/-- `_extract_from_quick_view(page)` on the chosen modal.  The full-text
fallback block runs only when company or location is still missing. -/
def extract_from_quick_view (m : Modal) : QVJob :=
  let title := qvTitle m
  let company := qvCompany m
  let location := qvLocation m
  let description := qvDescription m
  let salary := qvSalary m
  let posting := qvPostingDate m
  let url := qvUrl m
  if company = "" ∨ location = "" then
    let lines := cleanLines m.innerText
    let company :=
      if company = "" ∧ lines.length > 1 then
        match ((lines.drop 1).take 4).find? (fun l =>
            l ≠ title && l.length > 3 && l.length < 100 &&
            !(qvCompanyBad.any (fun w => occursIn (lowerStr l) w))) with
        | some l => l
        | none => company
      else company
    let location :=
      if location = "" then
        match lines.find? (fun l => cities7.any (fun c => occursIn l c)) with
        | some l => l
        | none => location
      else location
    let salary :=
      if salary = "" then
        match lines.find? qvFallbackSalary with
        | some l => l
        | none => salary
      else salary
    let posting :=
      if posting = "" then
        match lines.find? (fun l => occursIn (lowerStr l) "publicado" || dateRe l) with
        | some l => l
        | none => posting
      else posting
    ⟨title, company, location, description, salary, posting, url⟩
  else
    ⟨title, company, location, description, salary, posting, url⟩

/-- `if job and job['title']: self.jobs.append(job)` over the quick-view
iterations (`ms` lists the modal contents seen at each click). -/
def qv_emit : List Modal → List QVJob
  | [] => []
  | m :: rest =>
    let j := extract_from_quick_view m
    if j.title ≠ "" then j :: qv_emit rest else qv_emit rest

/-! ## `elempleo_scraper_simple.py`: requests-based card extraction -/

/-- An element as `_parse_job_card` reads it. -/
structure SElem where
  /-- `get_text(strip=True)`. -/
  text : String
  /-- `get('href', '')` when present. -/
  href : Option String

/-- A job card: `select_one` over it. -/
structure SCard where
  sel1 : String → Option SElem

/-- A parsed listing page: `select` over it. -/
structure SSoup where
  selAll : String → List SCard

/-- `a or b or c` over `select_one` results: the first element found. -/
def firstSel (card : SCard) : List String → Option SElem
  | [] => none
  | s :: rest =>
    match card.sel1 s with
    | some e => some e
    | none => firstSel card rest

/-- `s[:500]`. -/
def takeChars (n : Nat) (s : String) : String := String.mk (s.data.take n)

/-- `SimpleElempleoScraper._parse_job_card(card)`. -/
def parse_job_card (card : SCard) : QVJob :=
  let tu :=
    match firstSel card ["h2 a", "h3 a", ".job-title a", "a.title"] with
    | some e =>
      let url :=
        match e.href with
        | some h =>
          if h ≠ "" then
            if hasPre h.data "http".data then h else "https://www.elempleo.com" ++ h
          else ""
        | none => ""
      (e.text, url)
    | none => ("", "")
  let company := ((firstSel card [".company", ".company-name", ".employer"]).map SElem.text).getD ""
  let location := ((firstSel card [".location", ".job-location", ".place"]).map SElem.text).getD ""
  let salary := ((firstSel card [".salary", ".wage", ".compensation"]).map SElem.text).getD ""
  let posting := ((firstSel card [".date", ".posted-date", "time"]).map SElem.text).getD ""
  let description :=
    match firstSel card [".description", ".job-desc", ".summary"] with
    | some e => takeChars 500 e.text
    | none => ""
  ⟨tu.1, company, location, description, salary, posting, tu.2⟩

/-- The declared card-selector `or`-chain of `_extract_jobs_from_soup`. -/
def simpleSelectors : List String :=
  [".card-offer", ".job-item", "article.job", "[data-job-id]", ".vacancy-card"]

/-- `a or b or ... or e` over the selections: the first non-empty one. -/
def firstNonempty : List (List SCard) → List SCard
  | [] => []
  | l :: rest => if l.isEmpty then firstNonempty rest else l

def simple_job_cards (soup : SSoup) : List SCard :=
  firstNonempty (simpleSelectors.map soup.selAll)

/-- The append loop: `if job and job['title']: self.jobs.append(job)`. -/
def simple_emit : List SCard → List QVJob
  | [] => []
  | c :: rest =>
    let j := parse_job_card c
    if j.title ≠ "" then j :: simple_emit rest else simple_emit rest

/-- `_extract_jobs_from_soup(soup)`: the appended records and the returned
count `len(job_cards)`. -/
def extract_jobs_from_soup (soup : SSoup) : List QVJob × Nat :=
  let cards := simple_job_cards soup
  if cards.isEmpty then ([], 0) else (simple_emit cards, cards.length)

/-! ## `elempleo_full_scraper.py`: detail-page enrichment -/

/-- The `CSV_FIELDS` schema of `elempleo_full_scraper.py`. -/
def CSV_FIELDS : List String :=
  ["featured_image", "featured", "filled", "urgent",
   "category", "type", "tag", "expiry_date", "gender",
   "apply_type", "apply_url", "apply_email",
   "salary_type", "max_salary",
   "experience", "career_level", "qualification", "video_url", "photos",
   "application_deadline_date", "address", "map_location"]

/-- A parsed detail page as `enrich_with_detail` queries it. -/
structure DetailSoup where
  /-- `soup.select_one(sel)` + `get_text(strip=True)`. -/
  selOne : String → Option String
  /-- The flattened `.description-block, article, ...` container text
  (`<br>` normalised to newlines), `none` when absent. -/
  descText : Option String
  /-- `soup.select_one("img[src*='empleo'], img[src*='ofertas']")`, its `src`. -/
  featuredImageSrc : Option String
  /-- `soup.get_text(" ", strip=True)`. -/
  fullText : String
  /-- `soup.select_one("a[href*='apply'], a[href*='postulate'], a[href*='mailto:'], a.button.apply")`,
  its `href`. -/
  applyLinkHref : Option String

/-- `extract_text(soup, selector)` of `elempleo_full_scraper.py`. -/
def extract_text_d (soup : DetailSoup) (sel : String) : String := (soup.selOne sel).getD ""

/-- Python `a or b` on strings. -/
def orStr (a b : String) : String := if a ≠ "" then a else b

/-- `for k in CSV_FIELDS: if k not in job: job[k] = ""`. -/
def ensure_keys (fields : List String) (j : Rcd String) : Rcd String :=
  fields.foldl (fun j f => if (keysOf j).contains f then j else dictSet j f "") j

/-- `job[k] = v or job.get(kSrc, "")` — one enrichment assignment. -/
def setOr (j : Rcd String) (k v kSrc : String) : Rcd String :=
  dictSet j k (orStr v (getStrD j kSrc))

/-- `if img and img.get("src"): job["featured_image"] = img["src"]`. -/
def imgUpd (j : Rcd String) (src : Option String) : Rcd String :=
  match src with
  | some s => if s ≠ "" then dictSet j "featured_image" s else j
  | none => j

/-- `if desc_container: job["description"] = detail_desc`. -/
def descUpd (j : Rcd String) (d : Option String) : Rcd String :=
  match d with
  | some t => dictSet j "description" t
  | none => j

/-- The salary block: `job["salary"] = salary_text` and, when the text has a
number run, `salary_type`/`max_salary`. -/
def salaryUpd (j : Rcd String) (txt : String) : Rcd String :=
  let salary_text := orStr txt (getStrD j "salary")
  let j2 := dictSet j "salary" salary_text
  if salary_text ≠ "" && !(findallNum salary_text).isEmpty then
    dictSet (dictSet j2 "salary_type" "monthly") "max_salary"
      (((findallNum salary_text).getLast?).getD "")
  else j2

/-- `job["expiry_date"] = job["application_deadline_date"] or job.get("expiry_date", "")`. -/
def expiryUpd (j : Rcd String) : Rcd String :=
  dictSet j "expiry_date" (orStr (getStrD j "application_deadline_date") (getStrD j "expiry_date"))

/-- `if email_match: job["apply_email"] = email_match.group(0)`. -/
def emailUpd (j : Rcd String) (em : Option String) : Rcd String :=
  match em with
  | some e => dictSet j "apply_email" e
  | none => j

/-- The apply-link block: capture `apply_url`, and for a `mailto:` link fill a
still-empty `apply_email` from it. -/
def linkUpd (j : Rcd String) (l : Option String) : Rcd String :=
  match l with
  | some href =>
    if href ≠ "" then
      let j2 := dictSet j "apply_url" href
      if hasPre href.data "mailto:".data && getStrD j2 "apply_email" = "" then
        dictSet j2 "apply_email" (String.mk (removeMailto href.data))
      else j2
    else j
  | none => j

/-- `job[k] = job.get(k, "false")` for the boolean flags. -/
def flagUpd (j : Rcd String) (k : String) : Rcd String :=
  dictSet j k ((dictGet j k).getD "false")

/-- `job["apply_type"] = "website" if job.get("apply_url") else ("email" if
job.get("apply_email") else "")`. -/
def applyTypeUpd (j : Rcd String) : Rcd String :=
  dictSet j "apply_type"
    (if getStrD j "apply_url" ≠ "" then "website"
     else if getStrD j "apply_email" ≠ "" then "email" else "")

/-- First half of `enrich_with_detail` (lines 117–170 of
`elempleo_full_scraper.py`): default keys, featured image, description,
category/type, salary parsing, location/address, dates, experience,
qualification, career level — each statement in source order. -/
def enrichFields (soup : DetailSoup) (job0 : Rcd String) : Rcd String :=
  let job := ensure_keys CSV_FIELDS job0
  let job := imgUpd job soup.featuredImageSrc
  let job := descUpd job soup.descText
  let job := setOr job "category"
    (extract_text_d soup ".category, [class*='categoria'], .breadcrumb li:last-child") "category"
  let job := setOr job "type" (extract_text_d soup "[class*='tipo'], .employment-type") "type"
  let job := salaryUpd job
    (extract_text_d soup "[class*='salario'], .js-joboffer-salary, .compensation")
  let job := setOr job "location"
    (extract_text_d soup "[class*='ubicacion'], .js-joboffer-city, [itemprop='addressLocality']")
    "location"
  let job := setOr job "address"
    (extract_text_d soup "[itemprop='streetAddress'], [class*='direccion']") "location"
  let job := setOr job "application_deadline_date"
    (extract_text_d soup "time, [class*='fecha'], [class*='publicado']")
    "application_deadline_date"
  let job := expiryUpd job
  let job := setOr job "experience"
    (extract_text_d soup "[class*='experiencia'], .experience") "experience"
  let job := setOr job "qualification"
    (extract_text_d soup "[class*='educacion'], [class*='formacion']") "qualification"
  setOr job "career_level" (extract_text_d soup "[class*='nivel'], .level") "career_level"

/-- Second half of `enrich_with_detail` (lines 172–188): apply email from the
full-text pattern, apply link, flags, apply-type classification, map location. -/
def enrichApply (soup : DetailSoup) (job1 : Rcd String) : Rcd String :=
  let job := emailUpd job1 (emailSearch soup.fullText)
  let job := linkUpd job soup.applyLinkHref
  let job := flagUpd job "featured"
  let job := flagUpd job "filled"
  let job := flagUpd job "urgent"
  let job := applyTypeUpd job
  dictSet job "map_location" ""

/-- `enrich_with_detail(page, job)` on a captured snapshot (the no-exception
path; a timeout or error returns the record as it stood). -/
def enrich_with_detail (soup : DetailSoup) (job0 : Rcd String) : Rcd String :=
  enrichApply soup (enrichFields soup job0)

/-! ## CSV serialization (`csv.DictWriter` with QUOTE_MINIMAL, and a reader) -/

/-- A character forcing QUOTE_MINIMAL quoting: the delimiter, the quote char,
or a character of the `\r\n` line terminator. -/
def specialB (c : Char) : Bool := c = ',' || c = '"' || c = '\r' || c = '\n'

def needsQuote (s : String) : Bool := s.data.any specialB

/-- Double every quote character. -/
def dq : List Char → List Char
  | [] => []
  | '"' :: r => '"' :: '"' :: dq r
  | c :: r => c :: dq r

/-- One serialized field. -/
def escField (s : String) : List Char :=
  if needsQuote s then '"' :: (dq s.data ++ ['"']) else s.data

/-- Fields joined by the delimiter. -/
def renderRow : List String → List Char
  | [] => []
  | [f] => escField f
  | f :: rest => escField f ++ ',' :: renderRow rest

/-- Rows each terminated by `\r\n` (the csv module's default). -/
def renderRows : List (List String) → List Char
  | [] => []
  | r :: rest => renderRow r ++ '\r' :: '\n' :: renderRows rest

/-- The row `DictWriter.writerow` emits for a record over `fields`
(missing keys become the empty `restval`). -/
def rowOf (fields : List String) (j : Rcd String) : List String :=
  fields.map (fun f => getStrD j f)

/-- The text `elempleo_full_scraper.save_to_csv` writes: a BOM (`utf-8-sig`),
the header row over `CSV_FIELDS`, one row per record. -/
def fullCsvContent (jobs : List (Rcd String)) : String :=
  String.mk ('﻿' :: renderRows (CSV_FIELDS :: jobs.map (rowOf CSV_FIELDS)))

/-- The fieldnames of the quick-view and simple writers. -/
def qvFieldnames : List String :=
  ["title", "company", "location", "description", "salary", "posting_date", "url"]

def qvRow (j : QVJob) : List String :=
  [j.title, j.company, j.location, j.description, j.salary, j.posting_date, j.url]

/-- The text `ElempleoQuickViewScraper.save_to_csv` writes (`utf-8-sig`). -/
def qvCsvContent (jobs : List QVJob) : String :=
  String.mk ('﻿' :: renderRows (qvFieldnames :: jobs.map qvRow))

/-- The text `SimpleElempleoScraper.save_to_csv` writes (`utf-8`, no BOM). -/
def simpleCsvContent (jobs : List QVJob) : String :=
  String.mk (renderRows (qvFieldnames :: jobs.map qvRow))

/-- The text `JobScraper.save_to_csv` writes (`utf-8-sig`, `FIELDS` header). -/
def combinedCsvContent (jobs : List (Rcd PyVal)) : String :=
  String.mk ('﻿' :: renderRows
    (FIELDS :: jobs.map (fun j => FIELDS.map (fun f => strOfVal ((dictGet j f).getD (PyVal.str ""))))))

/-- `save_to_csv` of `elempleo_full_scraper.py`: `(return value, file written)`.
An empty list returns early; otherwise missing fields are filled and the CSV
is written; the function itself returns `None` either way. -/
def save_to_csv_full (jobs : List (Rcd String)) (filename : String) :
    Option String × Option (String × String) :=
  if jobs.isEmpty then (none, none)
  else (none, some (filename, fullCsvContent (jobs.map (ensure_keys CSV_FIELDS))))

/-- `ElempleoQuickViewScraper.save_to_csv`: returns the filename on success. -/
def save_to_csv_quickview (jobs : List QVJob) (filename : String) :
    Option String × Option (String × String) :=
  if jobs.isEmpty then (none, none)
  else (some filename, some (filename, qvCsvContent jobs))

/-- `SimpleElempleoScraper.save_to_csv`: writes without BOM, returns `None`. -/
def save_to_csv_simple (jobs : List QVJob) (filename : String) :
    Option String × Option (String × String) :=
  if jobs.isEmpty then (none, none)
  else (none, some (filename, simpleCsvContent jobs))

/-- `JobScraper.save_to_csv`: returns the filename on success. -/
def save_to_csv_combined (jobs : List (Rcd PyVal)) (filename : String) :
    Option String × Option (String × String) :=
  if jobs.isEmpty then (none, none)
  else (some filename, some (filename, combinedCsvContent jobs))

/-- Reader state: at a field start, inside an unquoted field, inside a quoted
field, just after a closing quote, or just after a carriage return. -/
inductive CMode
  | start
  | raw
  | quoted
  | postq
  | cr
deriving DecidableEq, Repr

/-- A character-by-character CSV reader (the RFC-4180 dialect the csv module
writes): `fa` is the current field, `ra` the current row.  `\r\n` ends a row
(via the `cr` state), a doubled quote inside a quoted field is an escaped
quote (via the `postq` state), and the writer's trailing `\r\n` produces no
empty final record. -/
def csvRun : CMode → List Char → List Char → List String → List (List String)
  | .start, [], fa, ra => if ra.isEmpty then [] else [ra ++ [String.mk fa]]
  | .start, c :: r, fa, ra =>
    if c = '"' then csvRun .quoted r fa ra
    else if c = ',' then csvRun .start r [] (ra ++ [String.mk fa])
    else if c = '\r' then csvRun .cr r fa ra
    else csvRun .raw r (fa ++ [c]) ra
  | .raw, [], fa, ra => [ra ++ [String.mk fa]]
  | .raw, c :: r, fa, ra =>
    if c = ',' then csvRun .start r [] (ra ++ [String.mk fa])
    else if c = '\r' then csvRun .cr r fa ra
    else csvRun .raw r (fa ++ [c]) ra
  | .quoted, [], fa, ra => [ra ++ [String.mk fa]]
  | .quoted, c :: r, fa, ra =>
    if c = '"' then csvRun .postq r fa ra
    else csvRun .quoted r (fa ++ [c]) ra
  | .postq, [], fa, ra => [ra ++ [String.mk fa]]
  | .postq, c :: r, fa, ra =>
    if c = '"' then csvRun .quoted r (fa ++ ['"']) ra
    else if c = ',' then csvRun .start r [] (ra ++ [String.mk fa])
    else if c = '\r' then csvRun .cr r fa ra
    else csvRun .raw r (fa ++ [c]) ra
  | .cr, [], fa, ra => [ra ++ [String.mk (fa ++ ['\r'])]]
  | .cr, c :: r, fa, ra =>
    if c = '\n' then (ra ++ [String.mk fa]) :: csvRun .start r [] []
    else if c = ',' then csvRun .start r [] (ra ++ [String.mk (fa ++ ['\r'])])
    else if c = '\r' then csvRun .cr r (fa ++ ['\r']) ra
    else csvRun .raw r (fa ++ ['\r', c]) ra

/-- `utf-8-sig` reading: a leading BOM is dropped. -/
def stripBom : List Char → List Char
  | c :: r => if c = '﻿' then r else c :: r
  | [] => []

/-- Re-reading a written CSV file: the list of records. -/
def parseCsv (s : String) : List (List String) :=
  csvRun .start (stripBom s.data) [] []

/-! ## Concrete fixtures used by closed statements -/

/-- A detail-page snapshot on which every lookup fails. -/
def emptyAllSoup : AllSoup :=
  { featuredImageSrc := none, descText := none, selOne := fun _ => none,
    firstSpanText := none, dataColumnSpans := [], careerIconSpan := none,
    fullText := "", ogUrl := none }

/-- A listing-page stream whose every page shows the same single job button and
a working "Siguiente" link: pagination that stops producing new identifiers but
keeps advancing. -/
def repeatPages : Nat → AutoPage := fun _ => ⟨["offer-1"], ["Siguiente"]⟩

/-- A page whose highest-priority elempleo card selector matches one card whose
text is empty. -/
def emptyCardPage : CPage :=
  { locCount := fun s => if s = ".js-joboffer-result" then 1 else 0,
    locAll := fun s => if s = ".js-joboffer-result" then [⟨"", none⟩] else [] }

/-- A quick-view modal where the company and location selectors succeed, every
salary selector fails, and the visible text shows a salary line. -/
def salaryModal : Modal :=
  { q := fun sel =>
      if sel = ".company" then some "Acme Corp"
      else if sel = ".location" then some "Heredia" else none,
    innerText := "Título de la oferta\n₡450,000 mensual",
    qvLinkHref := none }

/-- A card whose text cleans to at least two lines, one of them a salary. -/
def twoLineCard : CCard :=
  ⟨"Dev Backend\nAcme\n₡500,000 neto\nSan José", some "/oferta/1"⟩

/-- A detail page carrying both an email-shaped token in its visible text and
an apply-intent link. -/
def bothApplySoup : DetailSoup :=
  { selOne := fun _ => none, descText := none, featuredImageSrc := none,
    fullText := "contacto rrhh@acme.com aqui",
    applyLinkHref := some "https://apply.acme.com/form" }

/-- A detail page with no date selector match at all. -/
def emptyDetailSoup : DetailSoup :=
  { selOne := fun _ => none, descText := none, featuredImageSrc := none,
    fullText := "", applyLinkHref := none }

/-- A parsed listing page whose highest-priority simple-scraper selector
matches a single card. -/
def simpleFixture : SSoup :=
  ⟨fun s => if s = ".card-offer" then [⟨fun _ => none⟩] else []⟩

/-- A record over the simple writer's schema with one value needing quoting. -/
def sampleQVJob : QVJob :=
  { title := "Dev, Senior", company := "Acme \"CR\"", location := "San José",
    description := "a\r\nb", salary := "₡1,000,000", posting_date := "hoy",
    url := "https://x" }

/-- A full-schema record (every `CSV_FIELDS` key, in schema order). -/
def sampleFullRecord : Rcd String := CSV_FIELDS.map (fun f => (f, "v-" ++ f))

/-! # Theorems -/

/-! ## Dictionary lemmas -/

theorem dictGet_dictSet_self {α} (k : String) (v : α) :
    ∀ r : Rcd α, dictGet (dictSet r k v) k = some v := by
  intro r
  induction r with
  | nil => simp [dictSet, dictGet, List.find?]
  | cons p r ih =>
    by_cases h : p.1 = k
    · simp [dictSet, h, dictGet, List.find?]
    · simp only [dictSet, if_neg h]
      simpa [dictGet, List.find?, h] using ih

theorem dictGet_dictSet_ne {α} (k k' : String) (v : α) (hne : k' ≠ k) :
    ∀ r : Rcd α, dictGet (dictSet r k v) k' = dictGet r k' := by
  intro r
  induction r with
  | nil => simp [dictSet, dictGet, List.find?, Ne.symm hne]
  | cons p r ih =>
    by_cases h : p.1 = k
    · simp only [dictSet, if_pos h]
      simp [dictGet, List.find?, Ne.symm hne, h]
    · simp only [dictSet, if_neg h]
      by_cases h2 : p.1 = k'
      · simp [dictGet, List.find?, h2]
      · simpa [dictGet, List.find?, h2] using ih

theorem getStrD_dictSet (r : Rcd String) (k k' : String) (v : String) :
    getStrD (dictSet r k v) k' = if k' = k then v else getStrD r k' := by
  by_cases h : k' = k
  · subst h; simp [getStrD, dictGet_dictSet_self]
  · simp [getStrD, dictGet_dictSet_ne _ _ _ h, h]

theorem keysOf_dictSet_mem {α} (k : String) (v : α) :
    ∀ r : Rcd α, k ∈ keysOf r → keysOf (dictSet r k v) = keysOf r := by
  intro r
  induction r with
  | nil => intro h; cases h
  | cons p r ih =>
    intro hmem
    by_cases h : p.1 = k
    · simp [dictSet, h, keysOf]
    · simp only [dictSet, if_neg h, keysOf, List.map_cons]
      have hk : k ∈ keysOf r := by
        rcases (List.mem_cons.mp hmem) with h1 | h1
        · exact absurd h1.symm h
        · exact h1
      have := ih hk
      simp only [keysOf] at this
      rw [this]


/-! ## Key-set preservation (claim C1) -/

theorem keysOf_applyStep (j : Rcd String) (s : Step) (h : s.1 ∈ keysOf j) :
    keysOf (applyStep j s) = keysOf j := by
  unfold applyStep
  cases s.2 j with
  | none => rfl
  | some v => exact keysOf_dictSet_mem s.1 v j h

theorem keysOf_foldl_applyStep :
    ∀ (steps : List Step) (j : Rcd String), (∀ s ∈ steps, s.1 ∈ keysOf j) →
      keysOf (steps.foldl applyStep j) = keysOf j
  | [], _, _ => rfl
  | s :: rest, j, h => by
    have hs : s.1 ∈ keysOf j := h s (List.mem_cons_self s rest)
    have hk : keysOf (applyStep j s) = keysOf j := keysOf_applyStep j s hs
    have ih := keysOf_foldl_applyStep rest (applyStep j s) (fun t ht => by
      rw [hk]; exact h t (List.mem_cons_of_mem s ht))
    simpa [List.foldl_cons, hk] using ih

theorem keysOf_initRecord (fields : List String) : keysOf (initRecord fields) = fields := by
  induction fields with
  | nil => rfl
  | cons f rest ih =>
    simp only [keysOf, initRecord, List.map_cons] at *
    rw [ih]

/-- Every key `get_job_details` writes is a key of the `HEADERS` schema. -/
theorem allSteps_keys (soup : AllSoup) (today : Nat) :
    ∀ s ∈ allSteps soup today, s.1 ∈ HEADERS := by
  intro s hs
  have hfst : (allSteps soup today).map Prod.fst =
      ["_job_featured_image", "_job_description", "_job_title", "_job_category", "_job_type",
       "_job_salary", "_job_salary_type", "_job_max_salary", "_job_location", "_job_address",
       "_job_expiry_date", "_job_application_deadline_date", "_job_experience",
       "_job_qualification", "_job_career_level", "_job_apply_email", "_job_apply_url",
       "_job_featured", "_job_filled", "_job_urgent", "_job_gender", "_job_tag",
       "_job_video_url", "_job_photos", "_job_map_location", "_job_apply_type"] := rfl
  have hmem : s.1 ∈ (allSteps soup today).map Prod.fst := List.mem_map_of_mem Prod.fst hs
  rw [hfst] at hmem
  have hsub : ∀ x ∈ (["_job_featured_image", "_job_description", "_job_title", "_job_category",
      "_job_type", "_job_salary", "_job_salary_type", "_job_max_salary", "_job_location",
      "_job_address", "_job_expiry_date", "_job_application_deadline_date", "_job_experience",
      "_job_qualification", "_job_career_level", "_job_apply_email", "_job_apply_url",
      "_job_featured", "_job_filled", "_job_urgent", "_job_gender", "_job_tag",
      "_job_video_url", "_job_photos", "_job_map_location", "_job_apply_type"] : List String),
      x ∈ HEADERS := by decide
  exact hsub s.1 hmem

/-- C1.  For every markup snapshot and configured field schema, the JobRecord
returned by field extraction has key set exactly the schema's field names —
no missing and no extra keys — even when the body is cut short at any point
`k` by a caught exception (`get_job_details_upto`), and on a snapshot where
every selector lookup fails the selector-driven fields are the empty string.
The same key-set invariant holds for `_init_job` of the combined scraper. -/
theorem extraction_record_keys (soup : AllSoup) (today k : Nat) (site : String) :
    keysOf (get_job_details soup today) = HEADERS ∧
    keysOf (get_job_details_upto soup today k) = HEADERS ∧
    keysOf (init_job site) = FIELDS ∧
    (∀ f ∈ ["_job_title", "_job_category", "_job_salary", "_job_salary_type",
        "_job_max_salary", "_job_location", "_job_address", "_job_experience",
        "_job_qualification", "_job_career_level", "_job_apply_email", "_job_apply_url",
        "_job_featured_image", "_job_description", "_job_gender"],
      dictGet (get_job_details emptyAllSoup 0) f = some "") := by
  refine ⟨?_, ?_, rfl, by decide⟩
  · rw [get_job_details,
      keysOf_foldl_applyStep _ _ (by rw [keysOf_initRecord]; exact allSteps_keys soup today),
      keysOf_initRecord]
  · rw [get_job_details_upto,
      keysOf_foldl_applyStep _ _ (by
        rw [keysOf_initRecord]
        intro s hs
        exact allSteps_keys soup today s (List.take_subset k _ hs)),
      keysOf_initRecord]

/-! ## Discovery termination (claim C3) and identifier-set algebra (claim C9) -/

theorem mem_insertId (acc : List String) (x y : String) (h : x ∈ acc) : x ∈ insertId acc y := by
  unfold insertId
  split
  · exact h
  · exact List.mem_append_left _ h

theorem self_mem_insertId (acc : List String) (y : String) : y ∈ insertId acc y := by
  unfold insertId
  split
  next h => exact List.mem_of_elem_eq_true h
  next _ => exact List.mem_append_right _ (List.mem_singleton.mpr rfl)

theorem insertId_of_mem (acc : List String) (y : String) (h : y ∈ acc) :
    insertId acc y = acc := by
  unfold insertId
  rw [if_pos (List.elem_eq_true_of_mem h)]

theorem length_le_insertId (acc : List String) (y : String) :
    acc.length ≤ (insertId acc y).length := by
  unfold insertId
  split
  · exact Nat.le_refl _
  · simp

theorem mem_collectIds :
    ∀ (btns acc : List String) (x : String), x ∈ acc → x ∈ collectIds btns acc
  | [], _, _, h => h
  | b :: rest, acc, x, h => by
    simp only [collectIds]
    exact mem_collectIds rest _ x (by split <;> [exact mem_insertId _ _ _ h; exact h])

theorem mem_collectIdsScroll :
    ∀ (btns acc : List String) (x : String), x ∈ acc → x ∈ collectIdsScroll btns acc
  | [], _, _, h => h
  | b :: rest, acc, x, h => by
    simp only [collectIdsScroll]
    exact mem_collectIdsScroll rest _ x (mem_insertId _ _ _ h)

theorem btn_mem_collectIds :
    ∀ (btns acc : List String) (b : String), b ∈ btns → b ≠ "" → b ∈ collectIds btns acc := by
  intro btns
  induction btns with
  | nil => intro _ b h; cases h
  | cons c rest ih =>
    intro acc b hmem hne
    rcases List.mem_cons.mp hmem with rfl | h
    · simp only [collectIds, if_pos hne]
      exact mem_collectIds rest _ b (self_mem_insertId acc b)
    · exact ih _ b h hne

theorem btn_mem_collectIdsScroll :
    ∀ (btns acc : List String) (b : String), b ∈ btns → b ∈ collectIdsScroll btns acc := by
  intro btns
  induction btns with
  | nil => intro _ b h; cases h
  | cons c rest ih =>
    intro acc b hmem
    rcases List.mem_cons.mp hmem with rfl | h
    · exact mem_collectIdsScroll rest _ b (self_mem_insertId acc b)
    · exact ih _ b h

theorem collectIds_of_all_mem :
    ∀ (btns acc : List String), (∀ b ∈ btns, b ≠ "" → b ∈ acc) →
      collectIds btns acc = acc := by
  intro btns
  induction btns with
  | nil => intro _ _; rfl
  | cons c rest ih =>
    intro acc h
    simp only [collectIds]
    by_cases hc : c ≠ ""
    · rw [if_pos hc, insertId_of_mem _ _ (h c (List.mem_cons_self c rest) hc)]
      exact ih _ (fun b hb => h b (List.mem_cons_of_mem c hb))
    · rw [if_neg hc]
      exact ih _ (fun b hb => h b (List.mem_cons_of_mem c hb))

theorem collectIdsScroll_of_all_mem :
    ∀ (btns acc : List String), (∀ b ∈ btns, b ∈ acc) →
      collectIdsScroll btns acc = acc := by
  intro btns
  induction btns with
  | nil => intro _ _; rfl
  | cons c rest ih =>
    intro acc h
    simp only [collectIdsScroll]
    rw [insertId_of_mem _ _ (h c (List.mem_cons_self c rest))]
    exact ih _ (fun b hb => h b (List.mem_cons_of_mem c hb))

theorem length_le_collectIds :
    ∀ (btns acc : List String), acc.length ≤ (collectIds btns acc).length := by
  intro btns
  induction btns with
  | nil => intro _; exact Nat.le_refl _
  | cons c rest ih =>
    intro acc
    simp only [collectIds]
    refine Nat.le_trans ?_ (ih _)
    split
    · exact length_le_insertId _ _
    · exact Nat.le_refl _

theorem autoGo_mem_mono (pages : Nat → AutoPage) :
    ∀ (remaining pn : Nat) (acc : List String) (x : String),
      x ∈ acc → x ∈ (autoGo pages remaining pn acc).1 := by
  intro remaining
  induction remaining with
  | zero =>
    intro pn acc x h
    simp only [autoGo]
    split
    · exact h
    · split
      · exact mem_collectIds _ _ _ h
      · exact mem_collectIds _ _ _ h
  | succ r ih =>
    intro pn acc x h
    simp only [autoGo]
    split
    · exact h
    · split
      · exact ih _ _ x (mem_collectIds _ _ _ h)
      · exact mem_collectIds _ _ _ h

/-- The iteration bound and the stop-reason characterization of the
auto-pagination loop. -/
theorem autoGo_spec (pages : Nat → AutoPage) :
    ∀ (remaining pn : Nat) (acc : List String),
      (autoGo pages remaining pn acc).2.1 ≤ pn + remaining ∧
      ((autoGo pages remaining pn acc).2.2 = StopReason.noButtons →
        (pages (autoGo pages remaining pn acc).2.1).buttons = []) ∧
      ((autoGo pages remaining pn acc).2.2 = StopReason.noNext →
        hasNextLink (pages (autoGo pages remaining pn acc).2.1) = false) := by
  intro remaining
  induction remaining with
  | zero =>
    intro pn acc
    simp only [autoGo]
    split
    next h =>
      refine ⟨by simp, fun _ => ?_, fun hx => by simp at hx⟩
      simpa [List.isEmpty_iff] using h
    next h =>
      split
      next h2 =>
        exact ⟨by simp, fun hx => by simp at hx, fun hx => by simp at hx⟩
      next h2 =>
        refine ⟨by simp, fun hx => by simp at hx, fun _ => ?_⟩
        simpa using h2
  | succ r ih =>
    intro pn acc
    simp only [autoGo]
    split
    next h =>
      refine ⟨by simp, fun _ => ?_, fun hx => by simp at hx⟩
      simpa [List.isEmpty_iff] using h
    next h =>
      split
      next h2 =>
        obtain ⟨b1, b2, b3⟩ := ih (pn + 1) (collectIds (pages pn).buttons acc)
        exact ⟨by omega, b2, b3⟩
      next h2 =>
        refine ⟨by simp, fun hx => by simp at hx, fun _ => ?_⟩
        simpa using h2

/-- C3 counterexample: a pagination whose pages all repeat the same single
identifier and always offer a "Siguiente" link.  With `max_pages = 3` the
driver processes three snapshots and stops only at the `max_pages` bound,
although the second snapshot already contributed no new identifier — so "no
new identifiers" is not a termination condition of the code. -/
theorem discovery_no_new_ids_keeps_running :
    get_job_ids_with_playwright_auto repeatPages 3 = (["offer-1"], 3, StopReason.maxPages) ∧
    collectIds (repeatPages 2).buttons ["offer-1"] = ["offer-1"] := by decide

/-- C3 (amended).  Auto-pagination discovery always terminates, processing at
most `max 1 max_pages` snapshots; it stops early exactly when a snapshot shows
no job buttons at all or when no "next" control is found — a snapshot that
merely contributes no new identifiers does not stop it.  A page stream whose
first page has no job buttons terminates on the first iteration with zero
identifiers.  The scroll driver of `scrape.py` performs exactly its
`max_scrolls` iterations. -/
theorem discovery_termination_amended (pages : Nat → AutoPage) (maxPages : Nat)
    (snapshots : Nat → List String) (maxScrolls : Nat) :
    (get_job_ids_with_playwright_auto pages maxPages).2.1 ≤ max 1 maxPages ∧
    ((get_job_ids_with_playwright_auto pages maxPages).2.2 = StopReason.noButtons →
      (pages (get_job_ids_with_playwright_auto pages maxPages).2.1).buttons = []) ∧
    ((get_job_ids_with_playwright_auto pages maxPages).2.2 = StopReason.noNext →
      hasNextLink (pages (get_job_ids_with_playwright_auto pages maxPages).2.1) = false) ∧
    ((pages 1).buttons = [] →
      get_job_ids_with_playwright_auto pages maxPages = ([], 1, StopReason.noButtons)) ∧
    get_job_ids_with_playwright snapshots maxScrolls =
      (List.range maxScrolls).foldl (fun acc i => collectIdsScroll (snapshots (i + 1)) acc) [] := by
  obtain ⟨b1, b2, b3⟩ := autoGo_spec pages (maxPages - 1) 1 []
  have hle : (autoGo pages (maxPages - 1) 1 []).2.1 ≤ max 1 maxPages := by omega
  refine ⟨hle, b2, b3, fun h => ?_, rfl⟩
  show autoGo pages (maxPages - 1) 1 [] = ([], 1, StopReason.noButtons)
  cases maxPages - 1 with
  | zero => simp [autoGo, h]
  | succ r => simp [autoGo, h]

/-- C9.  Identifier collection is idempotent over an unchanged snapshot — in
both the truthiness-guarded variant of `all_scraper.py` and the unconditional
variant of `scrape.py` — collecting a second time changes neither the set nor
its size; and the accumulated identifier set is monotonically non-decreasing,
both through one collection pass and through the whole discovery loop. -/
theorem identifier_collection_idempotent_monotone (btns acc : List String)
    (pages : Nat → AutoPage) :
    collectIds btns (collectIds btns acc) = collectIds btns acc ∧
    collectIdsScroll btns (collectIdsScroll btns acc) = collectIdsScroll btns acc ∧
    (collectIds btns (collectIds btns acc)).length = (collectIds btns acc).length ∧
    acc.length ≤ (collectIds btns acc).length ∧
    (∀ x ∈ acc, x ∈ collectIds btns acc) ∧
    (∀ remaining pn : Nat, ∀ x ∈ acc, x ∈ (autoGo pages remaining pn acc).1) := by
  have hidem : collectIds btns (collectIds btns acc) = collectIds btns acc :=
    collectIds_of_all_mem _ _ (fun b hb hne => btn_mem_collectIds _ _ b hb hne)
  refine ⟨hidem,
    collectIdsScroll_of_all_mem _ _ (fun b hb => btn_mem_collectIdsScroll _ _ b hb),
    by rw [hidem],
    length_le_collectIds _ _,
    fun x hx => mem_collectIds _ _ _ hx,
    fun remaining pn x hx => autoGo_mem_mono pages remaining pn acc x hx⟩

/-! ## Card-selector cascade (claim C2) and row emission (claim C4) -/

theorem find_elements_debug_skip_zero (page : CPage) :
    ∀ (pre rest : List (List String)),
      (∀ s ∈ pre, page.locCount (joinComma s) = 0) →
      find_elements_debug page (pre ++ rest) = find_elements_debug page rest := by
  intro pre
  induction pre with
  | nil => intro rest _; rfl
  | cons s pre ih =>
    intro rest h
    simp only [List.cons_append, find_elements_debug]
    rw [if_neg (by simp [h s (List.mem_cons_self s pre)])]
    exact ih rest (fun t ht => h t (List.mem_cons_of_mem s ht))

theorem emit_cards_eq_filter (site : String) :
    ∀ cards : List CCard,
      emit_cards site cards = (cards.map (process_card site)).filter
        (fun j => pvTruthy ((dictGet j "title").getD (PyVal.str ""))) := by
  intro cards
  induction cards with
  | nil => rfl
  | cons c rest ih =>
    simp only [emit_cards, List.map_cons, List.filter_cons]
    by_cases hp : pvTruthy ((dictGet (process_card site c) "title").getD (PyVal.str ""))
    · simp [hp, ih]
    · simp [hp, ih]

theorem qv_emit_eq_filter :
    ∀ ms : List Modal,
      qv_emit ms = (ms.map extract_from_quick_view).filter (fun j => j.title ≠ "") := by
  intro ms
  induction ms with
  | nil => rfl
  | cons m rest ih =>
    simp only [qv_emit, List.map_cons, List.filter_cons]
    by_cases hp : (extract_from_quick_view m).title = ""
    · simp [hp, ih]
    · simp [hp, ih]

theorem simple_emit_eq_filter :
    ∀ cs : List SCard,
      simple_emit cs = (cs.map parse_job_card).filter (fun j => j.title ≠ "") := by
  intro cs
  induction cs with
  | nil => rfl
  | cons c rest ih =>
    simp only [simple_emit, List.map_cons, List.filter_cons]
    by_cases hp : (parse_job_card c).title = ""
    · simp [hp, ih]
    · simp [hp, ih]

theorem scrape_elempleo_length_le (page : CPage) (maxJobs : Nat) :
    (scrape_elempleo page maxJobs).length ≤ maxJobs := by
  unfold scrape_elempleo
  simp only []
  split
  · simp
  · rw [emit_cards_eq_filter]
    refine Nat.le_trans (List.length_filter_le _ _) ?_
    rw [List.length_map]
    exact Nat.le_trans (Nat.le_of_eq (List.length_take _ _)) (Nat.min_le_left _ _)

/-- C2.  Card collection evaluates the declared strategies in priority order:
whenever every strategy before `sels` counts zero matches and `sels` counts at
least one, the result is exactly `sels`'s matches, every lower-priority
strategy ignored; the elempleo card loop delegates at most `max_jobs` cards to
extraction; and in the simple scraper a match for the highest-priority
`.card-offer` entry is used verbatim. -/
theorem card_cascade_first_match (page : CPage) (pre post : List (List String))
    (sels : List String) (maxJobs : Nat) (ssoup : SSoup)
    (h0 : ∀ s ∈ pre, page.locCount (joinComma s) = 0)
    (h1 : page.locCount (joinComma sels) > 0) :
    find_elements_debug page (pre ++ sels :: post) = page.locAll (joinComma sels) ∧
    (scrape_elempleo page maxJobs).length ≤ maxJobs ∧
    (ssoup.selAll ".card-offer" ≠ [] →
      simple_job_cards ssoup = ssoup.selAll ".card-offer") := by
  refine ⟨?_, scrape_elempleo_length_le page maxJobs, fun hne => ?_⟩
  · rw [find_elements_debug_skip_zero page pre _ h0]
    simp only [find_elements_debug]
    rw [if_pos h1]
  · simp [simple_job_cards, simpleSelectors, firstNonempty, List.isEmpty_iff, hne]

theorem card_cascade_first_match_witness :
    emptyCardPage.locCount (joinComma [".js-joboffer-result"]) > 0 ∧
    (find_elements_debug emptyCardPage ([] ++ [".js-joboffer-result"] :: [["article"]]) =
        emptyCardPage.locAll (joinComma [".js-joboffer-result"]) ∧
      (scrape_elempleo emptyCardPage 20).length ≤ 20 ∧
      (simpleFixture.selAll ".card-offer" ≠ [] →
        simple_job_cards simpleFixture = simpleFixture.selAll ".card-offer")) :=
  ⟨by decide,
   card_cascade_first_match emptyCardPage [] [["article"]] [".js-joboffer-result"] 20
     simpleFixture (fun s hs => absurd hs (List.not_mem_nil s)) (by decide)⟩

/-- C4 counterexample: the highest-priority selector matches one card, but its
text yields no title, so the record is dropped — one card in, zero rows out —
contradicting "a record whose title extraction fails is still accumulated and
written rather than dropped". -/
theorem empty_title_record_dropped :
    scrape_elempleo emptyCardPage 20 = [] ∧
    (find_elements_debug emptyCardPage elempleoSelectorSets).length = 1 := by decide

/-- C4 (amended).  In every scraper variant the accumulated rows are exactly
the extracted records whose title is non-empty: a record with an empty title
is dropped, never written; all other extraction failures surface as
empty-string fields inside accumulated records, never as omitted rows. -/
theorem rows_are_title_filtered_records (site : String) (cards : List CCard)
    (ms : List Modal) (scards : List SCard) :
    emit_cards site cards = (cards.map (process_card site)).filter
      (fun j => pvTruthy ((dictGet j "title").getD (PyVal.str ""))) ∧
    qv_emit ms = (ms.map extract_from_quick_view).filter (fun j => j.title ≠ "") ∧
    simple_emit scards = (scards.map parse_job_card).filter (fun j => j.title ≠ "") :=
  ⟨emit_cards_eq_filter site cards, qv_emit_eq_filter ms, simple_emit_eq_filter scards⟩

/-! ## Salary fallback heuristic (claim C5) -/

theorem dictGet_dictSet {α} (r : Rcd α) (k k' : String) (v : α) :
    dictGet (dictSet r k v) k' = if k' = k then some v else dictGet r k' := by
  by_cases h : k' = k
  · subst h; simp [dictGet_dictSet_self]
  · simp [dictGet_dictSet_ne _ _ _ h, h]

/-- When the selector cascades produced both a company and a location, the
full-text fallback block is skipped entirely. -/
theorem extract_qv_no_fallback (m : Modal) (hc : qvCompany m ≠ "") (hl : qvLocation m ≠ "") :
    extract_from_quick_view m =
      ⟨qvTitle m, qvCompany m, qvLocation m, qvDescription m, qvSalary m,
       qvPostingDate m, qvUrl m⟩ := by
  simp only [extract_from_quick_view]
  rw [if_neg (by simp [hc, hl])]

/-- When the fallback block does run and the salary cascade failed, the salary
is the first clean line passing `qvFallbackSalary` (or stays empty). -/
theorem extract_qv_salary_fallback (m : Modal)
    (hguard : qvCompany m = "" ∨ qvLocation m = "") (hs : qvSalary m = "") :
    (extract_from_quick_view m).salary =
      (((cleanLines m.innerText).find? qvFallbackSalary).getD "") := by
  simp only [extract_from_quick_view]
  rw [if_pos hguard]
  cases hfind : (cleanLines m.innerText).find? qvFallbackSalary <;> simp [hs, hfind]

/-- In the elempleo card loop, a card with at least two clean lines gets as
salary the first line with a money marker (or keeps the empty default). -/
theorem process_card_salary (site : String) (card : CCard)
    (h2 : (cleanLines card.innerText).length ≥ 2) :
    dictGet (process_card site card) "salary" =
      some (PyVal.str (((cleanLines card.innerText).find? combinedSalaryLine).getD "")) := by
  have hinit : dictGet (init_job site) "salary" = some (PyVal.str "") := rfl
  simp only [process_card]
  rw [if_pos h2]
  cases hloc : (cleanLines card.innerText).find? (fun l => cities5.any (fun c => occursIn l c)) <;>
    cases hsal : (cleanLines card.innerText).find? combinedSalaryLine <;>
    cases hexp : expSearch (lowerStr card.innerText) <;>
    cases hlink : card.linkHref <;>
    simp [hloc, hsal, hexp, hlink, dictGet_dictSet, hinit] <;>
    split <;>
    simp [dictGet_dictSet, hinit]

/-- C5 counterexample: every declared salary selector fails and the visible
text has the line `"₡450,000 mensual"` (which the fallback predicate accepts),
yet because the company and location cascades both succeeded the fallback
block never runs and the salary field stays empty. -/
theorem salary_fallback_skipped_cex :
    qvSalary salaryModal = "" ∧
    (cleanLines salaryModal.innerText).find? qvFallbackSalary = some "₡450,000 mensual" ∧
    (extract_from_quick_view salaryModal).salary = "" := by decide

/-- C5 (amended).  The quick-view full-text fallback runs only when the
company or location field is still missing: if both cascades succeeded the
salary keeps its cascade value (empty when the cascade failed); when the
fallback does run and the salary cascade failed, the salary becomes the first
non-empty trimmed line bearing ₡, $, or "confidencial" that also contains a
digit or "confidencial".  In the combined card scraper, a card with at least
two clean lines gets as salary the first line bearing ₡, $, or "colones". -/
theorem salary_fallback_amended (m : Modal) (site : String) (card : CCard)
    (hs : qvSalary m = "")
    (h2 : (cleanLines card.innerText).length ≥ 2) :
    (qvCompany m ≠ "" → qvLocation m ≠ "" → (extract_from_quick_view m).salary = "") ∧
    ((qvCompany m = "" ∨ qvLocation m = "") →
      (extract_from_quick_view m).salary =
        ((cleanLines m.innerText).find? qvFallbackSalary).getD "") ∧
    dictGet (process_card site card) "salary" =
      some (PyVal.str (((cleanLines card.innerText).find? combinedSalaryLine).getD "")) := by
  refine ⟨fun hc hl => ?_, fun hg => extract_qv_salary_fallback m hg hs,
    process_card_salary site card h2⟩
  rw [extract_qv_no_fallback m hc hl]
  exact hs

theorem salary_fallback_amended_witness :
    qvSalary salaryModal = "" ∧
    (cleanLines twoLineCard.innerText).length ≥ 2 ∧
    ((qvCompany salaryModal ≠ "" → qvLocation salaryModal ≠ "" →
        (extract_from_quick_view salaryModal).salary = "") ∧
      ((qvCompany salaryModal = "" ∨ qvLocation salaryModal = "") →
        (extract_from_quick_view salaryModal).salary =
          ((cleanLines salaryModal.innerText).find? qvFallbackSalary).getD "") ∧
      dictGet (process_card "elempleo.com" twoLineCard) "salary" =
        some (PyVal.str (((cleanLines twoLineCard.innerText).find? combinedSalaryLine).getD ""))) :=
  ⟨by decide, by decide,
   salary_fallback_amended salaryModal "elempleo.com" twoLineCard (by decide) (by decide)⟩

/-! ## Apply-method classification (claim C6) and expiry dates (claim C7) -/

theorem dictGet_applyStep_ne (j : Rcd String) (s : Step) (k : String) (h : s.1 ≠ k) :
    dictGet (applyStep j s) k = dictGet j k := by
  unfold applyStep
  cases s.2 j with
  | none => rfl
  | some v => exact dictGet_dictSet_ne _ _ _ (Ne.symm h) _

theorem dictGet_foldl_applyStep_ne :
    ∀ (sl : List Step) (j : Rcd String) (k : String), (∀ s ∈ sl, s.1 ≠ k) →
      dictGet (sl.foldl applyStep j) k = dictGet j k
  | [], _, _, _ => rfl
  | s :: rest, j, k, h => by
    rw [List.foldl_cons,
      dictGet_foldl_applyStep_ne rest _ k (fun t ht => h t (List.mem_cons_of_mem s ht)),
      dictGet_applyStep_ne j s k (h s (List.mem_cons_self s rest))]

theorem allSteps_drop12_fst (soup : AllSoup) (today : Nat) :
    ((allSteps soup today).drop 12).map Prod.fst =
      ["_job_experience", "_job_qualification", "_job_career_level", "_job_apply_email",
       "_job_apply_url", "_job_featured", "_job_filled", "_job_urgent", "_job_gender",
       "_job_tag", "_job_video_url", "_job_photos", "_job_map_location", "_job_apply_type"] :=
  rfl

/-- The detail-page extractor of `all_scraper.py` always sets both date fields
to the `today + 30` placeholder, whatever the page contains. -/
theorem get_job_details_dates (soup : AllSoup) (today : Nat) :
    dictGet (get_job_details soup today) "_job_expiry_date" = some (fmtDate (today + 30)) ∧
    dictGet (get_job_details soup today) "_job_application_deadline_date" =
      some (fmtDate (today + 30)) := by
  have hsplit : get_job_details soup today =
      ((allSteps soup today).drop 12).foldl applyStep (get_job_details_upto soup today 12) := by
    rw [get_job_details, get_job_details_upto, ← List.foldl_append, List.take_append_drop]
  constructor
  · rw [hsplit, dictGet_foldl_applyStep_ne _ _ _ (by
      intro s hs
      have hm := List.mem_map_of_mem Prod.fst hs
      rw [allSteps_drop12_fst] at hm
      have : ∀ x ∈ (["_job_experience", "_job_qualification", "_job_career_level",
          "_job_apply_email", "_job_apply_url", "_job_featured", "_job_filled", "_job_urgent",
          "_job_gender", "_job_tag", "_job_video_url", "_job_photos", "_job_map_location",
          "_job_apply_type"] : List String), x ≠ "_job_expiry_date" := by decide
      exact this s.1 hm)]
    show dictGet (dictSet (dictSet _ "_job_expiry_date" (fmtDate (today + 30)))
        "_job_application_deadline_date" (fmtDate (today + 30))) "_job_expiry_date" = _
    rw [dictGet_dictSet_ne _ _ _ (by decide), dictGet_dictSet_self]
  · rw [hsplit, dictGet_foldl_applyStep_ne _ _ _ (by
      intro s hs
      have hm := List.mem_map_of_mem Prod.fst hs
      rw [allSteps_drop12_fst] at hm
      have : ∀ x ∈ (["_job_experience", "_job_qualification", "_job_career_level",
          "_job_apply_email", "_job_apply_url", "_job_featured", "_job_filled", "_job_urgent",
          "_job_gender", "_job_tag", "_job_video_url", "_job_photos", "_job_map_location",
          "_job_apply_type"] : List String), x ≠ "_job_application_deadline_date" := by decide
      exact this s.1 hm)]
    show dictGet (dictSet _ "_job_application_deadline_date" (fmtDate (today + 30)))
        "_job_application_deadline_date" = _
    rw [dictGet_dictSet_self]

/-- `all_scraper.py` classifies every record's apply method as `"external"`. -/
theorem get_job_details_apply_type (soup : AllSoup) (today : Nat) :
    dictGet (get_job_details soup today) "_job_apply_type" = some "external" := by
  have hsplit : get_job_details soup today =
      ((allSteps soup today).drop 25).foldl applyStep (get_job_details_upto soup today 25) := by
    rw [get_job_details, get_job_details_upto, ← List.foldl_append, List.take_append_drop]
  rw [hsplit]
  show dictGet (applyStep (get_job_details_upto soup today 25)
      ("_job_apply_type", fun _ => some "external")) "_job_apply_type" = some "external"
  simp [applyStep, dictGet_dictSet_self]

theorem dictGet_setOr (j : Rcd String) (k v kSrc k2 : String) :
    dictGet (setOr j k v kSrc) k2 =
      if k2 = k then some (orStr v (getStrD j kSrc)) else dictGet j k2 := by
  simp [setOr, dictGet_dictSet]

theorem dictGet_imgUpd_ne (j : Rcd String) (src : Option String) (k : String)
    (h : k ≠ "featured_image") : dictGet (imgUpd j src) k = dictGet j k := by
  cases src with
  | none => rfl
  | some t => simp only [imgUpd]; split_ifs <;> simp [dictGet_dictSet, h]

theorem dictGet_descUpd_ne (j : Rcd String) (d : Option String) (k : String)
    (h : k ≠ "description") : dictGet (descUpd j d) k = dictGet j k := by
  cases d with
  | none => rfl
  | some t => simp [descUpd, dictGet_dictSet, h]

theorem dictGet_salaryUpd_ne (j : Rcd String) (txt : String) (k : String)
    (h1 : k ≠ "salary") (h2 : k ≠ "salary_type") (h3 : k ≠ "max_salary") :
    dictGet (salaryUpd j txt) k = dictGet j k := by
  simp only [salaryUpd]
  split_ifs <;> simp [dictGet_dictSet, h1, h2, h3]

theorem dictGet_expiryUpd (j : Rcd String) (k : String) :
    dictGet (expiryUpd j) k =
      if k = "expiry_date" then
        some (orStr (getStrD j "application_deadline_date") (getStrD j "expiry_date"))
      else dictGet j k := by
  simp [expiryUpd, dictGet_dictSet]

theorem dictGet_emailUpd_ne (j : Rcd String) (em : Option String) (k : String)
    (h : k ≠ "apply_email") : dictGet (emailUpd j em) k = dictGet j k := by
  cases em with
  | none => rfl
  | some e => simp [emailUpd, dictGet_dictSet, h]

theorem dictGet_linkUpd_ne (j : Rcd String) (l : Option String) (k : String)
    (h1 : k ≠ "apply_url") (h2 : k ≠ "apply_email") :
    dictGet (linkUpd j l) k = dictGet j k := by
  cases l with
  | none => rfl
  | some href =>
    simp only [linkUpd]
    split_ifs <;> simp [dictGet_dictSet, h1, h2]

theorem dictGet_flagUpd_ne (j : Rcd String) (kf k : String) (h : k ≠ kf) :
    dictGet (flagUpd j kf) k = dictGet j k := by
  simp [flagUpd, dictGet_dictSet, h]

theorem dictGet_applyTypeUpd_ne (j : Rcd String) (k : String) (h : k ≠ "apply_type") :
    dictGet (applyTypeUpd j) k = dictGet j k := by
  simp [applyTypeUpd, dictGet_dictSet, h]

/-- The apply phase does not touch a key outside the seven it writes. -/
theorem dictGet_enrichApply_ne (soup : DetailSoup) (j : Rcd String) (k : String)
    (h1 : k ≠ "apply_email") (h2 : k ≠ "apply_url") (h3 : k ≠ "featured")
    (h4 : k ≠ "filled") (h5 : k ≠ "urgent") (h6 : k ≠ "apply_type")
    (h7 : k ≠ "map_location") :
    dictGet (enrichApply soup j) k = dictGet j k := by
  simp only [enrichApply]
  rw [dictGet_dictSet_ne _ _ _ h7, dictGet_applyTypeUpd_ne _ _ h6,
    dictGet_flagUpd_ne _ _ _ h5, dictGet_flagUpd_ne _ _ _ h4, dictGet_flagUpd_ne _ _ _ h3,
    dictGet_linkUpd_ne _ _ _ h2 h1, dictGet_emailUpd_ne _ _ _ h1]

/-- The deadline field `enrichFields` produces: the date-selector text, or the
record's prior value. -/
theorem enrichFields_deadline (soup : DetailSoup) (job0 : Rcd String) :
    dictGet (enrichFields soup job0) "application_deadline_date" =
      some (orStr (extract_text_d soup "time, [class*='fecha'], [class*='publicado']")
        (getStrD (ensure_keys CSV_FIELDS job0) "application_deadline_date")) := by
  simp only [enrichFields]
  simp [dictGet_setOr, dictGet_expiryUpd, dictGet_salaryUpd_ne, dictGet_descUpd_ne,
    dictGet_imgUpd_ne, getStrD]

/-- The expiry field `enrichFields` produces: the deadline just derived, or
the record's prior expiry — never a synthesized date. -/
theorem enrichFields_expiry (soup : DetailSoup) (job0 : Rcd String) :
    dictGet (enrichFields soup job0) "expiry_date" =
      some (orStr
        (orStr (extract_text_d soup "time, [class*='fecha'], [class*='publicado']")
          (getStrD (ensure_keys CSV_FIELDS job0) "application_deadline_date"))
        (getStrD (ensure_keys CSV_FIELDS job0) "expiry_date")) := by
  simp only [enrichFields]
  simp [dictGet_setOr, dictGet_expiryUpd, dictGet_salaryUpd_ne, dictGet_descUpd_ne,
    dictGet_imgUpd_ne, getStrD]

/-- The classification of `enrich_with_detail`: website when an apply link was
captured, else email when an apply email was found, else unclassified. -/
theorem enrichApply_classification (soup : DetailSoup) (j : Rcd String) :
    getStrD (enrichApply soup j) "apply_type" =
      (if getStrD (enrichApply soup j) "apply_url" ≠ "" then "website"
       else if getStrD (enrichApply soup j) "apply_email" ≠ "" then "email" else "") := by
  have hurl : getStrD (enrichApply soup j) "apply_url" =
      getStrD (linkUpd (emailUpd j (emailSearch soup.fullText)) soup.applyLinkHref)
        "apply_url" := by
    simp only [enrichApply, getStrD]
    rw [dictGet_dictSet_ne _ _ _ (by decide), dictGet_applyTypeUpd_ne _ _ (by decide),
      dictGet_flagUpd_ne _ _ _ (by decide), dictGet_flagUpd_ne _ _ _ (by decide),
      dictGet_flagUpd_ne _ _ _ (by decide)]
  have hem : getStrD (enrichApply soup j) "apply_email" =
      getStrD (linkUpd (emailUpd j (emailSearch soup.fullText)) soup.applyLinkHref)
        "apply_email" := by
    simp only [enrichApply, getStrD]
    rw [dictGet_dictSet_ne _ _ _ (by decide), dictGet_applyTypeUpd_ne _ _ (by decide),
      dictGet_flagUpd_ne _ _ _ (by decide), dictGet_flagUpd_ne _ _ _ (by decide),
      dictGet_flagUpd_ne _ _ _ (by decide)]
  have htype : getStrD (enrichApply soup j) "apply_type" =
      (if getStrD (linkUpd (emailUpd j (emailSearch soup.fullText)) soup.applyLinkHref)
          "apply_url" ≠ "" then "website"
       else if getStrD (linkUpd (emailUpd j (emailSearch soup.fullText)) soup.applyLinkHref)
          "apply_email" ≠ "" then "email" else "") := by
    simp only [enrichApply, getStrD]
    rw [dictGet_dictSet_ne _ _ _ (by decide)]
    simp [applyTypeUpd, dictGet_dictSet_self, getStrD, dictGet_flagUpd_ne, ne_eq, ite_not]
  rw [htype, hurl, hem]

/-- C6 counterexample: a detail page whose visible text carries the email
token `rrhh@acme.com` *and* an apply-intent link.  The claim's precedence
says the apply method should be classified `"email"`; the code classifies it
`"website"` (the link wins). -/
theorem apply_link_beats_email_cex :
    getStrD (enrich_with_detail bothApplySoup []) "apply_email" = "rrhh@acme.com" ∧
    getStrD (enrich_with_detail bothApplySoup []) "apply_url" = "https://apply.acme.com/form" ∧
    getStrD (enrich_with_detail bothApplySoup []) "apply_type" = "website" := by decide

/-- C6 (amended).  In `enrich_with_detail` an email token populates the email
field and an apply-intent link populates the URL field, but classification
gives the link precedence: apply-type is `"website"` whenever an apply URL was
captured, `"email"` when only an email was found, and empty otherwise.  In
`all_scraper.py`'s extractor the apply-type is unconditionally `"external"`. -/
theorem apply_classification_amended (soup : DetailSoup) (job0 : Rcd String)
    (asoup : AllSoup) (today : Nat) :
    getStrD (enrich_with_detail soup job0) "apply_type" =
      (if getStrD (enrich_with_detail soup job0) "apply_url" ≠ "" then "website"
       else if getStrD (enrich_with_detail soup job0) "apply_email" ≠ "" then "email" else "") ∧
    dictGet (get_job_details asoup today) "_job_apply_type" = some "external" :=
  ⟨enrichApply_classification soup (enrichFields soup job0),
   get_job_details_apply_type asoup today⟩

/-- C7 counterexample: a detail page with no explicit expiry enriched into an
empty record leaves both date fields empty — not "today plus 30 days", which
renders as a non-empty string. -/
theorem no_expiry_stays_empty_cex :
    getStrD (enrich_with_detail emptyDetailSoup []) "expiry_date" = "" ∧
    getStrD (enrich_with_detail emptyDetailSoup []) "application_deadline_date" = "" ∧
    fmtDate (0 + 30) ≠ "" := by decide

/-- C7 (amended).  The two extractors disagree with the claim's single rule:
`all_scraper.py` always sets expiry and deadline to the `today + 30`
placeholder, even when the page carries dates; `elempleo_full_scraper.py`
sets the deadline to the scraped date-selector text (falling back to the
record's prior value) and the expiry to that deadline (falling back to the
prior expiry), and never applies the `today + 30` placeholder. -/
theorem expiry_dates_amended (asoup : AllSoup) (today : Nat) (soup : DetailSoup)
    (job0 : Rcd String) :
    dictGet (get_job_details asoup today) "_job_expiry_date" = some (fmtDate (today + 30)) ∧
    dictGet (get_job_details asoup today) "_job_application_deadline_date" =
      some (fmtDate (today + 30)) ∧
    dictGet (enrich_with_detail soup job0) "application_deadline_date" =
      some (orStr (extract_text_d soup "time, [class*='fecha'], [class*='publicado']")
        (getStrD (ensure_keys CSV_FIELDS job0) "application_deadline_date")) ∧
    dictGet (enrich_with_detail soup job0) "expiry_date" =
      some (orStr
        (orStr (extract_text_d soup "time, [class*='fecha'], [class*='publicado']")
          (getStrD (ensure_keys CSV_FIELDS job0) "application_deadline_date"))
        (getStrD (ensure_keys CSV_FIELDS job0) "expiry_date")) := by
  obtain ⟨d1, d2⟩ := get_job_details_dates asoup today
  refine ⟨d1, d2, ?_, ?_⟩
  · rw [enrich_with_detail,
      dictGet_enrichApply_ne soup _ _ (by decide) (by decide) (by decide) (by decide)
        (by decide) (by decide) (by decide),
      enrichFields_deadline]
  · rw [enrich_with_detail,
      dictGet_enrichApply_ne soup _ _ (by decide) (by decide) (by decide) (by decide)
        (by decide) (by decide) (by decide),
      enrichFields_expiry]

/-! ## CSV round trip (claim C8) and empty-save frame (claim C10) -/

theorem nonspecial_of (c : Char) (h : specialB c = false) :
    ¬(c = ',') ∧ ¬(c = '"') ∧ ¬(c = '\r') ∧ ¬(c = '\n') := by
  simp only [specialB, Bool.or_eq_false_iff, decide_eq_false_iff_not] at h
  exact ⟨h.1.1.1, h.1.1.2, h.1.2, h.2⟩

/-- Unquoted content is consumed verbatim in `raw` mode. -/
theorem csvRun_raw_chunk :
    ∀ (cs rest fa : List Char) (ra : List String), (∀ c ∈ cs, specialB c = false) →
      csvRun .raw (cs ++ rest) fa ra = csvRun .raw rest (fa ++ cs) ra := by
  intro cs
  induction cs with
  | nil => intro rest fa ra _; simp
  | cons c t ih =>
    intro rest fa ra h
    obtain ⟨h1, _, h3, _⟩ := nonspecial_of c (h c (List.mem_cons_self c t))
    simp only [List.cons_append, csvRun, if_neg h1, if_neg h3]
    simpa using ih rest (fa ++ [c]) ra (fun x hx => h x (List.mem_cons_of_mem c hx))

/-- A non-special first character moves `start` into `raw` mode. -/
theorem csvRun_start_nonspecial (c : Char) (r fa : List Char) (ra : List String)
    (h : specialB c = false) :
    csvRun .start (c :: r) fa ra = csvRun .raw r (fa ++ [c]) ra := by
  obtain ⟨h1, h2, h3, _⟩ := nonspecial_of c h
  simp only [csvRun, if_neg h1, if_neg h2, if_neg h3]

/-- Quoted content with doubled quotes is consumed verbatim in `quoted` mode. -/
theorem csvRun_quoted_chunk :
    ∀ (cs rest fa : List Char) (ra : List String),
      csvRun .quoted (dq cs ++ rest) fa ra = csvRun .quoted rest (fa ++ cs) ra := by
  intro cs
  induction cs with
  | nil => intro rest fa ra; simp [dq]
  | cons c t ih =>
    intro rest fa ra
    by_cases hc : c = '"'
    · subst hc
      simp only [dq, List.cons_append, csvRun, if_pos, if_true, eq_self_iff_true]
      simpa using ih rest (fa ++ ['"']) ra
    · simp only [dq, List.cons_append, csvRun, if_neg hc]
      simpa using ih rest (fa ++ [c]) ra

theorem needsQuote_false_all (f : String) (h : needsQuote f = false) :
    ∀ c ∈ f.data, specialB c = false := by
  simpa [needsQuote, List.any_eq_false] using h

/-- One serialized field followed by a comma. -/
theorem csvRun_field_comma (f : String) (rest : List Char) (ra : List String) :
    csvRun .start (escField f ++ ',' :: rest) [] ra = csvRun .start rest [] (ra ++ [f]) := by
  by_cases hq : needsQuote f
  · simp only [escField, if_pos hq, List.cons_append, List.append_assoc, List.singleton_append]
    simp only [csvRun, if_pos, if_true, eq_self_iff_true, List.nil_append]
    have := csvRun_quoted_chunk f.data ('"' :: ',' :: rest) [] ra
    simp only [List.nil_append] at this
    rw [this]
    simp [csvRun]
  · have hall := needsQuote_false_all f (Bool.eq_false_iff.mpr hq)
    simp only [escField, if_neg hq]
    obtain ⟨fd⟩ := f
    cases fd with
    | nil => simp [csvRun]
    | cons c t =>
      simp only [List.cons_append] at hall ⊢
      rw [csvRun_start_nonspecial c _ _ _ (hall c (List.mem_cons_self c t))]
      simp only [List.nil_append]
      rw [csvRun_raw_chunk t (',' :: rest) [c] ra
        (fun x hx => hall x (List.mem_cons_of_mem c hx))]
      simp [csvRun]

/-- One serialized field followed by the row terminator. -/
theorem csvRun_field_crlf (f : String) (rest : List Char) (ra : List String) :
    csvRun .start (escField f ++ '\r' :: '\n' :: rest) [] ra =
      (ra ++ [f]) :: csvRun .start rest [] [] := by
  by_cases hq : needsQuote f
  · simp only [escField, if_pos hq, List.cons_append, List.append_assoc, List.singleton_append]
    simp only [csvRun, if_pos, if_true, eq_self_iff_true, List.nil_append]
    have := csvRun_quoted_chunk f.data ('"' :: '\r' :: '\n' :: rest) [] ra
    simp only [List.nil_append] at this
    rw [this]
    simp [csvRun]
  · have hall := needsQuote_false_all f (Bool.eq_false_iff.mpr hq)
    simp only [escField, if_neg hq]
    obtain ⟨fd⟩ := f
    cases fd with
    | nil => simp [csvRun]
    | cons c t =>
      simp only [List.cons_append] at hall ⊢
      rw [csvRun_start_nonspecial c _ _ _ (hall c (List.mem_cons_self c t))]
      simp only [List.nil_append]
      rw [csvRun_raw_chunk t ('\r' :: '\n' :: rest) [c] ra
        (fun x hx => hall x (List.mem_cons_of_mem c hx))]
      simp [csvRun]

/-- One serialized row (non-empty field list) followed by further input. -/
theorem csvRun_row :
    ∀ (row : List String), row ≠ [] → ∀ (rest : List Char) (ra : List String),
      csvRun .start (renderRow row ++ '\r' :: '\n' :: rest) [] ra =
        (ra ++ row) :: csvRun .start rest [] [] := by
  intro row
  induction row with
  | nil => intro h; exact absurd rfl h
  | cons f fs ih =>
    intro _ rest ra
    cases fs with
    | nil => simpa [renderRow] using csvRun_field_crlf f rest ra
    | cons g gs =>
      simp only [renderRow, List.append_assoc, List.cons_append]
      rw [csvRun_field_comma f _ ra, ih (by simp) rest (ra ++ [f])]
      simp

/-- The whole written table parses back row for row. -/
theorem csvRun_rows :
    ∀ rows : List (List String), (∀ r ∈ rows, r ≠ []) →
      csvRun .start (renderRows rows) [] [] = rows := by
  intro rows
  induction rows with
  | nil => intro _; rfl
  | cons r rs ih =>
    intro h
    simp only [renderRows]
    rw [csvRun_row r (h r (List.mem_cons_self r rs)) (renderRows rs) []]
    rw [ih (fun t ht => h t (List.mem_cons_of_mem r ht))]
    simp

theorem parseCsv_fullCsvContent (jobs : List (Rcd String)) :
    parseCsv (fullCsvContent jobs) = CSV_FIELDS :: jobs.map (rowOf CSV_FIELDS) := by
  have hrows : ∀ r ∈ CSV_FIELDS :: jobs.map (rowOf CSV_FIELDS), r ≠ [] := by
    intro r hr
    rcases List.mem_cons.mp hr with rfl | hr2
    · decide
    · obtain ⟨j, _, rfl⟩ := List.mem_map.mp hr2
      simp [rowOf, CSV_FIELDS]
  show csvRun .start (stripBom (fullCsvContent jobs).data) [] [] = _
  have hb : stripBom (fullCsvContent jobs).data =
      renderRows (CSV_FIELDS :: jobs.map (rowOf CSV_FIELDS)) := by
    simp [fullCsvContent, stripBom]
  rw [hb, csvRun_rows _ hrows]

theorem parseCsv_simpleCsvContent (jobs : List QVJob) :
    parseCsv (simpleCsvContent jobs) = qvFieldnames :: jobs.map qvRow := by
  have hrows : ∀ r ∈ qvFieldnames :: jobs.map qvRow, r ≠ [] := by
    intro r hr
    rcases List.mem_cons.mp hr with rfl | hr2
    · decide
    · obtain ⟨j, _, rfl⟩ := List.mem_map.mp hr2
      simp [qvRow]
  show csvRun .start (stripBom (simpleCsvContent jobs).data) [] [] = _
  have hb : stripBom (simpleCsvContent jobs).data =
      renderRows (qvFieldnames :: jobs.map qvRow) := by
    simp only [simpleCsvContent]
    show stripBom (renderRows (qvFieldnames :: jobs.map qvRow)) = _
    simp [renderRows, renderRow, qvFieldnames, escField, needsQuote, stripBom, specialB]
  rw [hb, csvRun_rows _ hrows]

theorem keysOf_tabulate (v : String → String) :
    ∀ fields : List String, keysOf (fields.map (fun f => (f, v f))) = fields
  | [] => rfl
  | f :: rest => by
    have ih := keysOf_tabulate v rest
    simp only [keysOf, List.map_cons, List.map] at ih ⊢
    rw [ih]

theorem ensure_keys_id :
    ∀ (fields : List String) (j : Rcd String), (∀ f ∈ fields, f ∈ keysOf j) →
      ensure_keys fields j = j := by
  intro fields
  induction fields with
  | nil => intro j _; rfl
  | cons f rest ih =>
    intro j h
    simp only [ensure_keys, List.foldl_cons,
      if_pos (List.elem_eq_true_of_mem (h f (List.mem_cons_self f rest)))]
    exact ih j (fun g hg => h g (List.mem_cons_of_mem f hg))

theorem dictGet_tabulate {α : Type} (v : String → α) :
    ∀ (l : List String) (f : String), f ∈ l →
      dictGet (l.map (fun g => (g, v g))) f = some (v f) := by
  intro l
  induction l with
  | nil => intro f h; cases h
  | cons g t ih =>
    intro f h
    by_cases hg : g = f
    · subst hg; simp [dictGet, List.find?]
    · rcases List.mem_cons.mp h with rfl | h2
      · exact absurd rfl hg
      · simp only [List.map_cons, dictGet, List.find?]
        rw [show (decide (g = f)) = false by simp [hg]]
        simpa [dictGet] using ih f h2

theorem rowOf_tabulate (v : String → String) (fields : List String) :
    rowOf fields (fields.map (fun g => (g, v g))) = fields.map v := by
  unfold rowOf
  refine List.map_congr_left ?_
  intro f hf
  simp [getStrD, dictGet_tabulate v fields f hf]

/-- C8 counterexample: the simple scraper's writer encodes the file as plain
UTF-8 with no byte-order mark — the first character of the written text is the
`t` of the `title` header, not the BOM. -/
theorem simple_csv_no_bom_cex :
    (simpleCsvContent [sampleQVJob]).data.take 1 = ['t'] ∧ ¬(('t' : Char) = '﻿') := by
  decide

/-- C8 (amended).  Writing N full-schema records and re-reading the CSV yields
exactly N data rows whose values equal the originals string for string, after
a header row naming the schema fields in their configured order, every row
with exactly the header's column count; the full scraper's writer prefixes the
BOM (`utf-8-sig`), while the simple scraper's writer starts directly with the
header (plain `utf-8`, no BOM), its rows round-tripping the same way. -/
theorem csv_round_trip_amended (vs : List (String → String)) (v : String → String)
    (qjobs : List QVJob) (qj : QVJob) (fn : String) :
    parseCsv (fullCsvContent (vs.map (fun v2 => CSV_FIELDS.map (fun f => (f, v2 f))))) =
      CSV_FIELDS :: vs.map (fun v2 => CSV_FIELDS.map v2) ∧
    (parseCsv (fullCsvContent (vs.map (fun v2 => CSV_FIELDS.map (fun f => (f, v2 f)))))).length =
      vs.length + 1 ∧
    (∀ row ∈ parseCsv (fullCsvContent (vs.map (fun v2 => CSV_FIELDS.map (fun f => (f, v2 f))))),
      row.length = CSV_FIELDS.length) ∧
    (fullCsvContent (vs.map (fun v2 => CSV_FIELDS.map (fun f => (f, v2 f))))).data.take 1 =
      ['﻿'] ∧
    parseCsv (simpleCsvContent (qj :: qjobs)) = qvFieldnames :: (qj :: qjobs).map qvRow ∧
    (∀ row ∈ parseCsv (simpleCsvContent (qj :: qjobs)), row.length = qvFieldnames.length) ∧
    (save_to_csv_full ((v :: vs).map (fun v2 => CSV_FIELDS.map (fun f => (f, v2 f)))) fn).2 =
      some (fn, fullCsvContent ((v :: vs).map (fun v2 => CSV_FIELDS.map (fun f => (f, v2 f))))) ∧
    (save_to_csv_simple (qj :: qjobs) fn).2 = some (fn, simpleCsvContent (qj :: qjobs)) := by
  have hmapid : ∀ vs2 : List (String → String),
      (vs2.map (fun v2 => CSV_FIELDS.map (fun f => (f, v2 f)))).map (ensure_keys CSV_FIELDS) =
        vs2.map (fun v2 => CSV_FIELDS.map (fun f => (f, v2 f))) := by
    intro vs2
    rw [List.map_map]
    refine List.map_congr_left ?_
    intro v2 _
    simp only [Function.comp_apply]
    exact ensure_keys_id CSV_FIELDS _ (by rw [keysOf_tabulate]; exact fun f hf => hf)
  have hparse := parseCsv_fullCsvContent (vs.map (fun v2 => CSV_FIELDS.map (fun f => (f, v2 f))))
  have hrows : (vs.map (fun v2 => CSV_FIELDS.map (fun f => (f, v2 f)))).map (rowOf CSV_FIELDS) =
      vs.map (fun v2 => CSV_FIELDS.map v2) := by
    rw [List.map_map]
    exact List.map_congr_left (fun v2 _ => rowOf_tabulate v2 CSV_FIELDS)
  refine ⟨by rw [hparse, hrows], by rw [hparse, hrows]; simp, ?_, ?_, parseCsv_simpleCsvContent _,
    ?_, ?_, ?_⟩
  · intro row hr
    rw [hparse, hrows] at hr
    rcases List.mem_cons.mp hr with rfl | h2
    · rfl
    · obtain ⟨v2, _, rfl⟩ := List.mem_map.mp h2
      simp
  · simp [fullCsvContent]
  · intro row hr
    rw [parseCsv_simpleCsvContent] at hr
    rcases List.mem_cons.mp hr with rfl | h2
    · rfl
    · obtain ⟨j, _, rfl⟩ := List.mem_map.mp h2
      simp [qvRow, qvFieldnames]
  · simp only [save_to_csv_full, List.map_cons]
    rw [if_neg (by simp)]
    rw [ensure_keys_id CSV_FIELDS _ (by rw [keysOf_tabulate]; exact fun f hf => hf), hmapid vs]
  · simp [save_to_csv_simple]

/-- C10.  Every writer variant called with an empty record list returns early
with `None` and performs no file write at all — a run with zero extracted
records produces no CSV file, not a header-only file; on a non-empty list the
quick-view and combined writers return the filename while the full and simple
writers still return `None`, and all of them write the file. -/
theorem save_to_csv_empty_no_file (fn : String) (jobs : List (Rcd String))
    (qjobs : List QVJob) (cjobs : List (Rcd PyVal)) (fj : Rcd String) (qj : QVJob)
    (cj : Rcd PyVal) :
    save_to_csv_full [] fn = (none, none) ∧
    save_to_csv_quickview [] fn = (none, none) ∧
    save_to_csv_simple [] fn = (none, none) ∧
    save_to_csv_combined [] fn = (none, none) ∧
    (save_to_csv_quickview (qj :: qjobs) fn).1 = some fn ∧
    (save_to_csv_combined (cj :: cjobs) fn).1 = some fn ∧
    (save_to_csv_full (fj :: jobs) fn).1 = none ∧
    (save_to_csv_simple (qj :: qjobs) fn).1 = none := by
  refine ⟨rfl, rfl, rfl, rfl, ?_, ?_, ?_, ?_⟩ <;>
    simp [save_to_csv_quickview, save_to_csv_combined, save_to_csv_full, save_to_csv_simple]

end ElempleoSpec
